import Mathlib

/-!
Verification of frog-management: sensor decoder, display encoder, control loop.

A shallow embedding of `src/frog-management.c` (a Raspberry Pi Pico program
that reads a DHT temperature/humidity sensor, shows the reading on a MAX7219
display and drives indicator outputs), together with proofs about it.

Modelling conventions

* `float` values are exact rationals (`ℚ`).  The two comparisons of the decoder
  (`> 100`, `> 125`) compare a quotient `n / 10` with an integer, so they do not
  depend on rounding.
* The conversion `float → int` truncates toward zero (`truncToInt`).  C defines
  it only when the truncated value fits in an `int`; on those inputs the model
  agrees with it.
* `int` values of `display_nums` are `Int`; `/` and `%` of C are `Int.tdiv` and
  `Int.tmod` (truncated division).  Conversion to `uint8_t` is reduction
  modulo 256 (`toUInt8`).
* `int data[5]` of `read_from_dht` only ever holds values `0..255`; it is a
  `List Nat` of length 5.  A write to `data[k]` with `5 ≤ k` lies outside the
  array and is undefined behaviour in C: the model stops with `Except.error k`.
* The sensor line is a function `Pin := Nat → Bool`: the value returned by the
  `n`-th call of `gpio_get(DHT_PIN)` made by one call of `read_from_dht`.
* The SPI side is the list of bus operations a function performs, in order.
* The GPIO outputs are the levels last written by `gpio_put` (`GpioOut`); the
  pin configuration done once at the start of `main` is not modelled.
-/

namespace FrogManagement

/-! ## Constants (lines 9–35) -/

/-- Source line 9: `#define DEBUG true`. -/
def DEBUG : Bool := true

/-- Source line 12: `#define NUM_MODULES 1`. -/
def NUM_MODULES : Nat := 1

/-- Source line 15: `const uint8_t CMD_DIGIT0 = 1;`. -/
def CMD_DIGIT0 : Nat := 1

/-- Source line 23: `#define MAX_TIMINGS 100`. -/
def MAX_TIMINGS : Nat := 100

/-- The reading, lines 37–41:
`typedef struct { float humidity; float temp_celsius; } dht_reading;`. -/
structure dht_reading where
  humidity : ℚ
  temp_celsius : ℚ
deriving DecidableEq

/-! ## Integer conversions -/

/-- Conversion `float → int` of C: the fractional part is discarded
(truncation toward zero). -/
def truncToInt (x : ℚ) : Int := Int.tdiv x.num x.den

/-- Conversion of an integer value to `uint8_t`: reduction modulo 256. -/
def toUInt8 (x : Int) : Nat := (x % 256).toNat

/-! ## SPI register writes (lines 43–83) -/

/-- One operation on the display bus. -/
inductive BusEvent where
  /-- The call `gpio_put(PICO_DEFAULT_SPI_CSN_PIN, value)`. -/
  | gpio_put_csn (value : Nat)
  /-- The call `spi_write_blocking(spi_default, buf, 2)` with `buf = [reg, data]`. -/
  | spi_write_blocking (reg data : Nat)
deriving DecidableEq

/-- The function `cs_select`: chip select is active low. -/
def cs_select : List BusEvent := [BusEvent.gpio_put_csn 0]

/-- The function `cs_deselect`. -/
def cs_deselect : List BusEvent := [BusEvent.gpio_put_csn 1]

/-- The loop `for (int i = 0; i < NUM_MODULES; i++) spi_write_blocking(...)`
of `write_register_all`, with `n` iterations left. -/
def spi_burst (reg data : Nat) : Nat → List BusEvent
  | 0 => []
  | n + 1 => BusEvent.spi_write_blocking reg data :: spi_burst reg data n

/-- The function `write_register_all(reg, data)`; both arguments are `uint8_t` values. -/
def write_register_all (reg data : Nat) : List BusEvent :=
  cs_select ++ spi_burst reg data NUM_MODULES ++ cs_deselect

/-! ## `display_nums` (lines 85–111) -/

/-- The loop body shared by the two digit loops of `display_nums`
(lines 91–95 with `limit = 3` on `measure_hum`, lines 98–102 with `limit = 8`
on `measure_temp`):
`for (; digit < limit; digit++) { numbers[digit] = measure % 10; measure /= 10; }`.
The first argument bounds the number of iterations. -/
def digit_loop (limit : Nat) : Nat → Nat → Int → List Int → Nat × Int × List Int
  | 0, digit, measure, numbers => (digit, measure, numbers)
  | fuel + 1, digit, measure, numbers =>
    if digit < limit then
      digit_loop limit fuel (digit + 1) (Int.tdiv measure 10)
        (numbers.set digit (Int.tmod measure 10))
    else (digit, measure, numbers)

/-- The array `numbers` of `display_nums` when the transmission loop starts
(state after line 104). -/
def display_buffer (measures : dht_reading) : List Int :=
  let measure_temp := truncToInt measures.temp_celsius
  let measure_hum := truncToInt measures.humidity
  let digit := 0
  let numbers : List Int := List.replicate 8 0
  let s1 := digit_loop 3 8 digit measure_hum numbers
  let digit := s1.1
  let numbers := s1.2.2
  let numbers := numbers.set 0 (numbers.getD 0 0 + 128)
  let numbers := numbers.set 3 15
  let s2 := digit_loop 8 8 (digit + 2) measure_temp numbers
  let numbers := s2.2.2
  let numbers := numbers.set 5 (numbers.getD 5 0 + 128)
  let numbers := numbers.set 7 15
  numbers

/-- The transmission loop of `display_nums` (lines 105–110), with `n` bounding
the iterations left:
`for (size_t i = 0; i < 8; i++) write_register_all(CMD_DIGIT0 + i, numbers[7 - i]);` -/
def write_loop (numbers : List Int) : Nat → Nat → List BusEvent
  | 0, _ => []
  | n + 1, i =>
    if i < 8 then
      let num_index := 7 - i
      write_register_all (toUInt8 ((CMD_DIGIT0 + i : Nat) : Int))
          (toUInt8 (numbers.getD num_index 0))
        ++ write_loop numbers n (i + 1)
    else []

/-- The function `display_nums(measures)`: the bus operations it performs. -/
def display_nums (measures : dht_reading) : List BusEvent :=
  write_loop (display_buffer measures) 8 0

/-! ## `read_from_dht` (lines 121–177) -/

/-- The sensor line: `pin n` is the level returned by the `n`-th call of
`gpio_get(DHT_PIN)`. -/
abbrev Pin := Nat → Bool

/-- The call `gpio_get(DHT_PIN)` as the `reads`-th sample, as an unsigned value. -/
def gpio_get (pin : Pin) (reads : Nat) : Nat := (pin reads).toNat

/-- The tick-counting loop (lines 135–141)
`while (gpio_get(DHT_PIN) == last) { count++; sleep_us(1); if (count == 255) break; }`
started with `reads` samples consumed and the given `count`; it returns the
number of samples consumed and the count.  The first argument bounds the number
of iterations. -/
def tick_loop (pin : Pin) (last : Nat) : Nat → Nat → Nat → Nat × Nat
  | 0, reads, count => (reads, count)
  | fuel + 1, reads, count =>
    if gpio_get pin reads == last then
      if count + 1 == 255 then (reads + 1, count + 1)
      else tick_loop pin last fuel (reads + 1) (count + 1)
    else (reads + 1, count)

/-- The local variables of `read_from_dht`, and the number of samples of the
pin consumed so far. -/
structure DhtState where
  data : List Nat
  last : Nat
  j : Nat
  reads : Nat
deriving DecidableEq

/-- State at line 132: `data = {0,0,0,0,0}`, `last = 1`, `j = 0`. -/
def DhtState.init : DhtState :=
  { data := [0, 0, 0, 0, 0], last := 1, j := 0, reads := 0 }

/-- The sampling loop (lines 132–153) from iteration `i`, with at most `n`
iterations left.  `Except.error k` reports a write to `data[k]` with `5 ≤ k`. -/
def sample_loop (pin : Pin) : Nat → Nat → DhtState → Except Nat DhtState
  | 0, _, st => Except.ok st
  | n + 1, i, st =>
    let r := tick_loop pin st.last 255 st.reads 0
    let count := r.2
    let st := { st with last := gpio_get pin r.1, reads := r.1 + 1 }
    if count == 255 then Except.ok st
    else if 4 ≤ i ∧ i % 2 = 0 then
      if st.j / 8 < 5 then
        let d := st.data.getD (st.j / 8) 0 <<< 1
        let d := if count > 16 then d ||| 1 else d
        sample_loop pin n (i + 1) { st with data := st.data.set (st.j / 8) d, j := st.j + 1 }
      else Except.error (st.j / 8)
    else sample_loop pin n (i + 1) st

/-- The validation and conversion of `read_from_dht` (lines 155–176): the new
value of `*result` and the text printed. -/
def decode (data : List Nat) (j : Nat) (result : dht_reading) : dht_reading × List String :=
  if 40 ≤ j ∧ data.getD 4 0
      = (data.getD 0 0 + data.getD 1 0 + data.getD 2 0 + data.getD 3 0) &&& 0xFF then
    let humidity : ℚ := (((data.getD 0 0 <<< 8) + data.getD 1 0 : Nat) : ℚ) / 10
    let humidity : ℚ := if humidity > 100 then (data.getD 0 0 : ℚ) else humidity
    let temp_celsius : ℚ := ((((data.getD 2 0 &&& 0x7F) <<< 8) + data.getD 3 0 : Nat) : ℚ) / 10
    let temp_celsius : ℚ := if temp_celsius > 125 then (data.getD 2 0 : ℚ) else temp_celsius
    let temp_celsius : ℚ := if data.getD 2 0 &&& 0x80 ≠ 0 then -temp_celsius else temp_celsius
    ({ humidity := humidity, temp_celsius := temp_celsius }, [])
  else
    (result, if DEBUG then ["Bad data\n"] else [])

/-- The sampling phase of `read_from_dht` on a given pin signal. -/
def sample (pin : Pin) : Except Nat DhtState :=
  sample_loop pin MAX_TIMINGS 0 DhtState.init

/-- The function `read_from_dht(&result)` on a given pin signal: the new value of
`*result`
and the text printed, or the index of an out-of-bounds write to `data`. -/
def read_from_dht (pin : Pin) (result : dht_reading) : Except Nat (dht_reading × List String) :=
  match sample pin with
  | Except.ok st => Except.ok (decode st.data st.j result)
  | Except.error k => Except.error k

/-! ## Observations on a run of the sampling loop -/

/-- The pair (`reads`, `last`) with which the sampling loop enters iteration
`i`, provided no earlier tick count reached 255. -/
def line_state (pin : Pin) : Nat → Nat × Nat
  | 0 => (DhtState.init.reads, DhtState.init.last)
  | i + 1 =>
    let r := tick_loop pin (line_state pin i).2 255 (line_state pin i).1 0
    (r.1 + 1, gpio_get pin r.1)

/-- The tick count `c_i` that the sampling loop measures in iteration `i`
(transition `i`), provided no earlier tick count reached 255. -/
def tick_count (pin : Pin) (i : Nat) : Nat :=
  (tick_loop pin (line_state pin i).2 255 (line_state pin i).1 0).2

/-- The `k`-th data bit: classification of the count of transition `4 + 2k`. -/
def data_bit (pin : Pin) (k : Nat) : Nat :=
  if tick_count pin (4 + 2 * k) > 16 then 1 else 0

/-- The bits `bit base, …, bit (base + len - 1)` read as a binary number, most
significant bit first. -/
def msb_first (bit : Nat → Nat) (base : Nat) : Nat → Nat
  | 0 => 0
  | len + 1 => 2 * msb_first bit base len + bit (base + len)

/-- The frame after the first `j` bits have been shifted in, eight per byte. -/
def frame_after (bit : Nat → Nat) (j : Nat) : List Nat :=
  [0, 1, 2, 3, 4].map (fun m => msb_first bit (8 * m) (min 8 (j - 8 * m)))

/-- The state with which the sampling loop enters iteration `n ≤ 83` when no
earlier tick count reached 255. -/
def state_at (pin : Pin) (n : Nat) : DhtState :=
  { data := frame_after (data_bit pin) ((n - 3) / 2),
    last := (line_state pin n).2,
    j := (n - 3) / 2,
    reads := (line_state pin n).1 }

/-- The state in which the sampling loop stops when the count of transition `t`
is the first to reach 255. -/
def state_timeout (pin : Pin) (t : Nat) : DhtState :=
  { state_at pin t with
    last := (line_state pin (t + 1)).2,
    reads := (line_state pin (t + 1)).1 }

/-- A line that toggles on every sample for the first `n` samples (low on even
samples, high on odd ones) and stays high afterwards. -/
def toggling_then_high (n : Nat) : Pin := fun k => decide (k % 2 = 1 ∨ n ≤ k)

/-! ## Lines with prescribed tick counts -/

/-- The level of sample `n` counted from the start of transition `i` on the line
built from the counts `c`: during transition `i` the line keeps the level the
loop waits on (high for even `i`, low for odd `i`) for `c i` samples and shows
the opposite level for the next two samples.  The first argument bounds the
number of transitions walked. -/
def line_of_counts (c : Nat → Nat) : Nat → Nat → Nat → Bool
  | 0, _, _ => true
  | fuel + 1, i, n =>
    if n < c i + 2 then
      if n < c i then decide (i % 2 = 0) else decide (i % 2 = 1)
    else line_of_counts c fuel (i + 1) (n - (c i + 2))

/-- A line on which the sampling loop measures the tick counts `c 0, c 1, …`. -/
def pin_of_counts (c : Nat → Nat) : Pin := fun n => line_of_counts c (n + 1) 0 n

/-- The number of samples taken by the transitions `i, …, i + k - 1` of
`pin_of_counts c`. -/
def span (c : Nat → Nat) : Nat → Nat → Nat
  | _, 0 => 0
  | i, k + 1 => (c i + 2) + span c (i + 1) k

/-- Bit `k` of a frame sent most significant bit first, eight bits per byte. -/
def frame_bit (frame : List Nat) (k : Nat) : Nat :=
  frame.getD (k / 8) 0 / 2 ^ (7 - k % 8) % 2

/-- Tick counts of a transmission of `frame` that sits on the threshold of the
classification: every transition lasts 16 ticks, except that a data bit 1 lasts
17 ticks, and the line stays idle from transition 83 on. -/
def counts_of_frame (frame : List Nat) : Nat → Nat := fun i =>
  if 82 < i then 255
  else if 4 ≤ i ∧ i % 2 = 0 ∧ frame_bit frame ((i - 4) / 2) = 1 then 17
  else 16

/-- A line that transmits `frame`. -/
def transmission (frame : List Nat) : Pin := pin_of_counts (counts_of_frame frame)

/-! ## The control loop of `main` (lines 217–265) -/

/-- Source line 25: `#define LOW_TEMP_LED 1`. -/
def LOW_TEMP_LED : Nat := 1

/-- Source line 26: `#define HIGH_TEMP_LED 2`. -/
def HIGH_TEMP_LED : Nat := 2

/-- Source line 27: `#define LOW_HUM_LED 3`. -/
def LOW_HUM_LED : Nat := 3

/-- Source line 29: `#define HEAT_MAT_PIN 4`. -/
def HEAT_MAT_PIN : Nat := 4

/-- Source line 31: `#define LOW_TEMP_RANGE 22.0f`. -/
def LOW_TEMP_RANGE : ℚ := 22

/-- Source line 32: `#define HIGH_TEMP_RANGE 28.0f`. -/
def HIGH_TEMP_RANGE : ℚ := 28

/-- Source line 33: `#define LOW_HUM_RANGE 75.0f`. -/
def LOW_HUM_RANGE : ℚ := 75

/-- The levels last written to the GPIO outputs, by GPIO number. -/
abbrev GpioOut := Nat → Bool

/-- The call `gpio_put(gpio, value)`: the output `gpio` takes the level `value`,
the other outputs keep theirs. -/
def gpio_put (out : GpioOut) (gpio : Nat) (value : Bool) : GpioOut :=
  fun g => if g = gpio then value else out g

/-- The threshold evaluation of the control loop (lines 241–264) on the reading
`reading`, started with the output levels `out`. -/
def evaluate_thresholds (reading : dht_reading) (out : GpioOut) : GpioOut :=
  let out :=
    if reading.temp_celsius ≥ HIGH_TEMP_RANGE then
      gpio_put out HIGH_TEMP_LED true
    else if reading.temp_celsius ≤ LOW_TEMP_RANGE then
      let out := gpio_put out LOW_TEMP_LED true
      gpio_put out HEAT_MAT_PIN true
    else
      let out := gpio_put out HIGH_TEMP_LED false
      let out := gpio_put out LOW_TEMP_LED false
      gpio_put out HEAT_MAT_PIN false
  if reading.humidity ≤ LOW_HUM_RANGE then
    gpio_put out LOW_HUM_LED true
  else
    gpio_put out LOW_HUM_LED false

/-- One iteration of the loop `while (true)` of `main` (lines 231–264) on the
pin signal `pin`: the sensor is read into `reading`, the reading is displayed
and the thresholds are evaluated.  It returns the reading, the display bus
operations and the output levels, or the index of an out-of-bounds write made
by `read_from_dht`. -/
def main_iteration (pin : Pin) (reading : dht_reading) (out : GpioOut) :
    Except Nat (dht_reading × List BusEvent × GpioOut) :=
  match read_from_dht pin reading with
  | Except.ok r => Except.ok (r.1, display_nums r.1, evaluate_thresholds r.1 out)
  | Except.error k => Except.error k

/-- All outputs low. -/
def all_low : GpioOut := fun _ => false

/-! ## Frames with one bit flipped, lines that keep toggling -/

/-- The frame with bit `k` of byte `m` flipped. -/
def flip_bit (frame : List Nat) (m k : Nat) : List Nat :=
  frame.set m (frame.getD m 0 ^^^ 2 ^ k)

/-- Tick counts of a line that changes level every 16 ticks during the first
`n` transitions and stays idle afterwards. -/
def counts_toggling (n : Nat) : Nat → Nat := fun i => if i < n then 16 else 255

/-! ## Bit-level facts -/

theorem and_0xFF (x : Nat) : x &&& 0xFF = x % 256 :=
  Nat.and_pow_two_sub_one_eq_mod x 8

theorem and_0x7F (x : Nat) : x &&& 0x7F = x % 128 :=
  Nat.and_pow_two_sub_one_eq_mod x 7

theorem and_0x80 (x : Nat) : x &&& 0x80 = x / 128 % 2 * 128 := by
  have h := Nat.and_two_pow x 7
  rw [Nat.toNat_testBit] at h
  exact h

theorem shl_8 (x : Nat) : x <<< 8 = 256 * x := by
  rw [Nat.shiftLeft_eq]; omega

theorem shl_1 (x : Nat) : x <<< 1 = 2 * x := by
  rw [Nat.shiftLeft_eq]; omega

theorem shl_1_or_1 (x : Nat) : x <<< 1 ||| 1 = 2 * x + 1 := by
  rw [shl_1]
  exact (Nat.mul_add_lt_is_or (show 1 < 2 ^ 1 by decide) x).symm

/-! ## The decoder accepts and rejects -/

/-- The read is the sampling phase followed by the decoder. -/
theorem read_from_dht_ok (pin : Pin) (st : DhtState) (result : dht_reading)
    (h : sample pin = Except.ok st) :
    read_from_dht pin result = Except.ok (decode st.data st.j result) := by
  simp [read_from_dht, h]

/-- The decoder on a frame that is accepted. -/
theorem decode_accept (b0 b1 b2 b3 b4 j : Nat) (result : dht_reading)
    (hj : 40 ≤ j) (hsum : b4 = (b0 + b1 + b2 + b3) % 256) :
    decode [b0, b1, b2, b3, b4] j result =
      ({ humidity :=
           if ((256 * b0 + b1 : Nat) : ℚ) / 10 > 100 then (b0 : ℚ)
           else ((256 * b0 + b1 : Nat) : ℚ) / 10,
         temp_celsius :=
           if b2.testBit 7 then
             -(if ((256 * (b2 % 128) + b3 : Nat) : ℚ) / 10 > 125 then (b2 : ℚ)
               else ((256 * (b2 % 128) + b3 : Nat) : ℚ) / 10)
           else
             (if ((256 * (b2 % 128) + b3 : Nat) : ℚ) / 10 > 125 then (b2 : ℚ)
               else ((256 * (b2 % 128) + b3 : Nat) : ℚ) / 10) }, []) := by
  have hbit : (b2 &&& 0x80 ≠ 0) ↔ b2.testBit 7 = true := by
    rw [and_0x80, Nat.testBit_to_div_mod]
    simp only [decide_eq_true_eq]
    omega
  unfold decode
  simp only [List.getD_cons_zero, List.getD_cons_succ, and_0xFF, and_0x7F, shl_8]
  rw [if_pos ⟨hj, hsum⟩]
  simp only [hbit]

/-- The decoder on a frame that is rejected: `*result` keeps its value and
`Bad data` is printed. -/
theorem decode_reject (data : List Nat) (j : Nat) (result : dht_reading)
    (h : j < 40 ∨ data.getD 4 0
      ≠ (data.getD 0 0 + data.getD 1 0 + data.getD 2 0 + data.getD 3 0) % 256) :
    decode data j result = (result, ["Bad data\n"]) := by
  unfold decode
  rw [and_0xFF, if_neg]
  · simp [DEBUG]
  · rintro ⟨h1, h2⟩
    rcases h with h | h
    · omega
    · exact h h2

/-! ## The digit buffer and its transmission -/

theorem truncToInt_of_nonneg (x : ℚ) (hx : 0 ≤ x) : truncToInt x = ⌊x⌋ := by
  unfold truncToInt
  rw [Rat.floor_def, Int.tdiv_eq_ediv (Rat.num_nonneg.mpr hx) (Int.ofNat_nonneg _)]

theorem truncToInt_neg (x : ℚ) : truncToInt (-x) = -truncToInt x := by
  unfold truncToInt
  rw [Rat.neg_num, Rat.neg_den, Int.neg_tdiv]

theorem truncToInt_of_nonpos (x : ℚ) (hx : x ≤ 0) : truncToInt x = ⌈x⌉ := by
  have h := truncToInt_neg (-x)
  rw [neg_neg] at h
  rw [h, truncToInt_of_nonneg (-x) (by linarith), Int.floor_neg, neg_neg]

/-- A value in `[n, n+1)` has integer part `n`. -/
theorem truncToInt_of_bounds (x : ℚ) (n : Nat) (h1 : (n : ℚ) ≤ x) (h2 : x < n + 1) :
    truncToInt x = (n : Int) := by
  have hx : 0 ≤ x := le_trans (Nat.cast_nonneg n) h1
  rw [truncToInt_of_nonneg x hx, Int.floor_eq_iff]
  exact ⟨by exact_mod_cast h1, by exact_mod_cast h2⟩

theorem truncToInt_intCast (n : Int) : truncToInt (n : ℚ) = n := by
  simp [truncToInt]

theorem tmod_ten_natCast (n : Nat) : Int.tmod (n : Int) 10 = ((n % 10 : Nat) : Int) := by
  rw [Int.tmod_eq_emod (Int.ofNat_nonneg n) (by decide)]
  omega

theorem tdiv_ten_natCast (n : Nat) : Int.tdiv (n : Int) 10 = ((n / 10 : Nat) : Int) := by
  rw [Int.tdiv_eq_ediv (Int.ofNat_nonneg n) (by decide)]
  omega

theorem neg_tmod_ten (a : Int) : Int.tmod (-a) 10 = -Int.tmod a 10 := by
  rw [Int.tmod_def, Int.tmod_def, Int.neg_tdiv]
  omega

/-- The digit buffer in closed form: positions 0–2 hold the humidity digits,
positions 5–6 the temperature digits, positions 3 and 7 the blank, and
position 4 keeps its initial 0. -/
theorem display_buffer_eq (measures : dht_reading) :
    display_buffer measures =
      [Int.tmod (truncToInt measures.humidity) 10 + 128,
       Int.tmod (Int.tdiv (truncToInt measures.humidity) 10) 10,
       Int.tmod (Int.tdiv (Int.tdiv (truncToInt measures.humidity) 10) 10) 10,
       15,
       0,
       Int.tmod (truncToInt measures.temp_celsius) 10 + 128,
       Int.tmod (Int.tdiv (truncToInt measures.temp_celsius) 10) 10,
       15] := by
  rfl

/-- C6: for a reading whose humidity has integer part `h ≥ 0` (truncation
toward zero, so humidity in `(-1, 0)` counts with `h = 0`), the digit buffer
has `buffer[0] = h mod 10 + 128`, `buffer[1] = (h div 10) mod 10`,
`buffer[2] = (h div 100) mod 10`, `buffer[3] = 15` and `buffer[7] = 15`,
whatever the temperature. -/
theorem display_nums_humidity_digits (measures : dht_reading) (h : Nat)
    (hh : truncToInt measures.humidity = (h : Int)) :
    (display_buffer measures)[0]? = some ((h % 10 + 128 : Nat) : Int)
      ∧ (display_buffer measures)[1]? = some ((h / 10 % 10 : Nat) : Int)
      ∧ (display_buffer measures)[2]? = some ((h / 100 % 10 : Nat) : Int)
      ∧ (display_buffer measures)[3]? = some 15
      ∧ (display_buffer measures)[7]? = some 15 := by
  rw [display_buffer_eq, hh]
  simp only [tmod_ten_natCast, tdiv_ten_natCast]
  have e : h / 10 / 10 = h / 100 := by omega
  rw [e]
  refine ⟨?_, rfl, rfl, rfl, rfl⟩
  simp

/-- Instance of C6: humidity 65.2 with the negative temperature -3.5. -/
theorem display_nums_humidity_digits_witness :
    (display_buffer { humidity := 652 / 10, temp_celsius := -(7 / 2) })[0]? = some 133
      ∧ (display_buffer { humidity := 652 / 10, temp_celsius := -(7 / 2) })[1]? = some 6
      ∧ (display_buffer { humidity := 652 / 10, temp_celsius := -(7 / 2) })[2]? = some 0
      ∧ (display_buffer { humidity := 652 / 10, temp_celsius := -(7 / 2) })[3]? = some 15
      ∧ (display_buffer { humidity := 652 / 10, temp_celsius := -(7 / 2) })[7]? = some 15 :=
  display_nums_humidity_digits { humidity := 652 / 10, temp_celsius := -(7 / 2) } 65
    (truncToInt_of_bounds _ 65 (by norm_num) (by norm_num))

/-- C7, as stated, fails: for the reading (65, 27) position 4 of the digit
buffer holds 0, not the ones digit 7 of the temperature, and position 6 holds
the tens digit 2, not the hundreds digit 0. -/
theorem display_nums_position_4_not_ones_digit :
    (display_buffer { humidity := 65, temp_celsius := 27 })[4]? = some 0
      ∧ (display_buffer { humidity := 65, temp_celsius := 27 })[4]? ≠ some ((27 : Int) % 10)
      ∧ (display_buffer { humidity := 65, temp_celsius := 27 })[6]? = some 2
      ∧ (display_buffer { humidity := 65, temp_celsius := 27 })[6]?
          ≠ some ((27 : Int) / 100 % 10) := by
  have e : (display_buffer { humidity := 65, temp_celsius := 27 })
      = [133, 6, 0, 15, 0, 135, 2, 15] := by
    rw [display_buffer_eq]
    have h65 : truncToInt (65 : ℚ) = 65 := truncToInt_intCast 65
    have h27 : truncToInt (27 : ℚ) = 27 := truncToInt_intCast 27
    simp only [h65, h27]
    decide
  rw [e]
  decide

/-- C7, amended: for a reading whose temperature has integer part `t ≥ 0`, the
second digit loop starts at position 5 (`digit += 2` after the first loop left
`digit = 3`): position 5 carries `t mod 10` (with the +128 flag), position 6
carries `(t div 10) mod 10`, position 4 keeps its initial 0 and position 7,
where the loop writes `(t div 100) mod 10`, is overwritten by the blank 15. -/
theorem display_nums_temperature_digits (measures : dht_reading) (t : Nat)
    (ht : truncToInt measures.temp_celsius = (t : Int)) :
    (digit_loop 3 8 0 (truncToInt measures.humidity) (List.replicate 8 0)).1 + 2 = 5
      ∧ (∀ numbers : List Int, numbers.length = 8 →
          (digit_loop 8 8 5 (truncToInt measures.temp_celsius) numbers).2.2
            = numbers.take 5 ++ [((t % 10 : Nat) : Int), ((t / 10 % 10 : Nat) : Int),
                ((t / 100 % 10 : Nat) : Int)])
      ∧ (display_buffer measures)[4]? = some 0
      ∧ (display_buffer measures)[5]? = some ((t % 10 + 128 : Nat) : Int)
      ∧ (display_buffer measures)[6]? = some ((t / 10 % 10 : Nat) : Int)
      ∧ (display_buffer measures)[7]? = some 15 := by
  rw [display_buffer_eq, ht]
  simp only [tmod_ten_natCast, tdiv_ten_natCast]
  refine ⟨rfl, ?_, rfl, ?_, rfl, rfl⟩
  · intro numbers hlen
    match numbers, hlen with
    | [a, b, c, d, e, f, g, h], _ =>
      simp only [digit_loop, tmod_ten_natCast, tdiv_ten_natCast]
      have e : t / 10 / 10 = t / 100 := by omega
      simp [e]
  · simp

/-- Instance of C7 (amended): temperature 27.7. -/
theorem display_nums_temperature_digits_witness :
    (display_buffer { humidity := 652 / 10, temp_celsius := 277 / 10 })[4]? = some 0
      ∧ (display_buffer { humidity := 652 / 10, temp_celsius := 277 / 10 })[5]? = some 135
      ∧ (display_buffer { humidity := 652 / 10, temp_celsius := 277 / 10 })[6]? = some 2
      ∧ (display_buffer { humidity := 652 / 10, temp_celsius := 277 / 10 })[7]? = some 15 :=
  (display_nums_temperature_digits { humidity := 652 / 10, temp_celsius := 277 / 10 } 27
    (truncToInt_of_bounds _ 27 (by norm_num) (by norm_num))).2.2

/-- C8: for a reading whose temperature has integer part `t ≥ 0`, position 5 of
the digit buffer holds the ones digit of the temperature with the decimal-point
flag: `buffer[5] = t mod 10 + 128`. -/
theorem display_nums_temperature_point (measures : dht_reading) (t : Nat)
    (ht : truncToInt measures.temp_celsius = (t : Int)) :
    (display_buffer measures)[5]? = some ((t % 10 + 128 : Nat) : Int) := by
  rw [display_buffer_eq, ht]
  simp only [tmod_ten_natCast]
  simp

/-- Instance of C8: temperature 21.9 gives `buffer[5] = 1 + 128`. -/
theorem display_nums_temperature_point_witness :
    (display_buffer { humidity := 80, temp_celsius := 219 / 10 })[5]? = some 129 :=
  display_nums_temperature_point { humidity := 80, temp_celsius := 219 / 10 } 21
    (truncToInt_of_bounds _ 21 (by norm_num) (by norm_num))

/-- C9, as stated, fails: for the reading (65, 27) positions 4..6 of the digit
buffer read as a least-significant-first decimal number give 270, not 27. -/
theorem display_nums_positions_4_to_6_not_temperature :
    (display_buffer { humidity := 65, temp_celsius := 27 }).getD 4 0
        + 10 * ((display_buffer { humidity := 65, temp_celsius := 27 }).getD 5 0 - 128)
        + 100 * (display_buffer { humidity := 65, temp_celsius := 27 }).getD 6 0 = 270
      ∧ (display_buffer { humidity := 65, temp_celsius := 27 }).getD 4 0
        + 10 * ((display_buffer { humidity := 65, temp_celsius := 27 }).getD 5 0 - 128)
        + 100 * (display_buffer { humidity := 65, temp_celsius := 27 }).getD 6 0
          ≠ truncToInt 27 := by
  have e : (display_buffer { humidity := 65, temp_celsius := 27 })
      = [133, 6, 0, 15, 0, 135, 2, 15] := by
    rw [display_buffer_eq]
    have h65 : truncToInt (65 : ℚ) = 65 := truncToInt_intCast 65
    have h27 : truncToInt (27 : ℚ) = 27 := truncToInt_intCast 27
    simp only [h65, h27]
    decide
  have h27 : truncToInt (27 : ℚ) = 27 := truncToInt_intCast 27
  rw [e, h27]
  decide

/-- C9, amended: for a reading whose humidity has integer part `h` in [0,99]
and whose temperature has integer part `t` in [-9,99], positions 0..2 of the
digit buffer (less the flag 128 at position 0) read least-significant first
give `h`; the temperature is found one position higher than stated: position 4
is 0, and positions 5..6 (less the flag 128 at position 5) read
least-significant first give `t`, so that positions 4..6 read `10 * t`. -/
theorem display_nums_round_trip (measures : dht_reading) (h t : Int)
    (hh : truncToInt measures.humidity = h) (ht : truncToInt measures.temp_celsius = t)
    (hh0 : 0 ≤ h) (hh99 : h ≤ 99) (ht9 : -9 ≤ t) (ht99 : t ≤ 99) :
    ((display_buffer measures).getD 0 0 - 128)
        + 10 * (display_buffer measures).getD 1 0
        + 100 * (display_buffer measures).getD 2 0 = h
      ∧ (display_buffer measures).getD 4 0 = 0
      ∧ ((display_buffer measures).getD 5 0 - 128)
        + 10 * (display_buffer measures).getD 6 0 = t
      ∧ (display_buffer measures).getD 4 0
        + 10 * ((display_buffer measures).getD 5 0 - 128)
        + 100 * (display_buffer measures).getD 6 0 = 10 * t := by
  rw [display_buffer_eq, hh, ht]
  simp only [List.getD_cons_zero, List.getD_cons_succ]
  obtain ⟨n, rfl⟩ := Int.eq_ofNat_of_zero_le hh0
  rcases le_or_lt 0 t with h0 | h0
  · obtain ⟨m, rfl⟩ := Int.eq_ofNat_of_zero_le h0
    simp only [tmod_ten_natCast, tdiv_ten_natCast]
    refine ⟨?_, trivial, ?_, ?_⟩ <;> omega
  · obtain ⟨m, hm⟩ : ∃ m : Nat, t = -(m : Int) := ⟨(-t).toNat, by omega⟩
    subst hm
    simp only [neg_tmod_ten, Int.neg_tdiv, tmod_ten_natCast, tdiv_ten_natCast]
    refine ⟨?_, trivial, ?_, ?_⟩ <;> omega

/-- Instance of C9 (amended): humidity 65.2 and temperature -3.5. -/
theorem display_nums_round_trip_witness :
    ((display_buffer { humidity := 652 / 10, temp_celsius := -(7 / 2) }).getD 0 0 - 128)
        + 10 * (display_buffer { humidity := 652 / 10, temp_celsius := -(7 / 2) }).getD 1 0
        + 100 * (display_buffer { humidity := 652 / 10, temp_celsius := -(7 / 2) }).getD 2 0
        = 65
      ∧ ((display_buffer { humidity := 652 / 10, temp_celsius := -(7 / 2) }).getD 5 0 - 128)
        + 10 * (display_buffer { humidity := 652 / 10, temp_celsius := -(7 / 2) }).getD 6 0
        = -3 := by
  have hh : truncToInt (652 / 10 : ℚ) = 65 := by
    rw [truncToInt_of_nonneg _ (by norm_num), Int.floor_eq_iff]
    norm_num
  have ht : truncToInt (-(7 / 2) : ℚ) = -3 := by
    rw [truncToInt_of_nonpos _ (by norm_num), Int.ceil_eq_iff]
    norm_num
  have w := display_nums_round_trip { humidity := 652 / 10, temp_celsius := -(7 / 2) } 65 (-3)
    hh ht (by decide) (by decide) (by decide) (by decide)
  exact ⟨w.1, w.2.2.1⟩

/-- C10: for every reading `display_nums` performs exactly 8 register writes,
for offsets 0..7 in order; the write at offset `i` addresses register
`CMD_DIGIT0 + i` with data byte `buffer[7 - i] mod 256`, and is one burst framed
by chip select (low, then high) carrying that pair `NUM_MODULES` times. -/
theorem display_nums_register_writes (measures : dht_reading) :
    display_nums measures =
      (List.range 8).flatMap (fun i =>
        [BusEvent.gpio_put_csn 0]
          ++ List.replicate NUM_MODULES
              (BusEvent.spi_write_blocking (CMD_DIGIT0 + i)
                ((display_buffer measures).getD (7 - i) 0 % 256).toNat)
          ++ [BusEvent.gpio_put_csn 1]) := by
  rfl


/-! ## Runs of the sampling loop -/

/-- The tick-counting loop started with `count + fuel = 255`: the count never
exceeds 255; it consumes `fuel` samples when the count reaches 255 and one
sample more than it counted otherwise. -/
theorem tick_loop_spec (pin : Pin) (last : Nat) (fuel reads count : Nat)
    (h : count + fuel = 255) (hf : 0 < fuel) :
    count ≤ (tick_loop pin last fuel reads count).2
      ∧ (tick_loop pin last fuel reads count).2 ≤ 255
      ∧ ((tick_loop pin last fuel reads count).2 = 255 →
          (tick_loop pin last fuel reads count).1 = reads + fuel)
      ∧ ((tick_loop pin last fuel reads count).2 < 255 →
          (tick_loop pin last fuel reads count).1
            = reads + ((tick_loop pin last fuel reads count).2 - count) + 1) := by
  induction fuel generalizing reads count with
  | zero => omega
  | succ fuel ih =>
    unfold tick_loop
    by_cases hg : (gpio_get pin reads == last) = true
    · rw [if_pos hg]
      by_cases hc : (count + 1 == 255) = true
      · rw [if_pos hc]
        have hc' : count + 1 = 255 := by simpa using hc
        refine ⟨by simp, by simp [hc'], fun _ => ?_, fun h' => ?_⟩
        · simp only; omega
        · simp only at h'; omega
      · rw [if_neg hc]
        have hc' : count + 1 ≠ 255 := by simpa using hc
        have ih' := ih (reads + 1) (count + 1) (by omega) (by omega)
        refine ⟨by omega, ih'.2.1, fun h' => ?_, fun h' => ?_⟩
        · rw [ih'.2.2.1 h']; omega
        · rw [ih'.2.2.2 h']; omega
    · rw [if_neg hg]
      refine ⟨by simp, by simp; omega, fun h' => ?_, fun _ => ?_⟩
      · simp only at h'; omega
      · simp

theorem tick_count_le (pin : Pin) (i : Nat) : tick_count pin i ≤ 255 :=
  (tick_loop_spec pin _ 255 _ 0 (by omega) (by omega)).2.1

/-- A transition whose count reaches 255 consumes 256 samples: 255 in the
tick-counting loop and one for `last = gpio_get(DHT_PIN)`. -/
theorem line_state_timeout (pin : Pin) (t : Nat) (h : tick_count pin t = 255) :
    (line_state pin (t + 1)).1 = (line_state pin t).1 + 256 := by
  have := (tick_loop_spec pin (line_state pin t).2 255 (line_state pin t).1 0
    (by omega) (by omega)).2.2.1 h
  show (tick_loop pin (line_state pin t).2 255 (line_state pin t).1 0).1 + 1 = _
  omega

theorem msb_first_step (bit : Nat → Nat) (j m : Nat) (hm : j / 8 = m) :
    msb_first bit (8 * m) (min 8 (j + 1 - 8 * m))
      = 2 * msb_first bit (8 * m) (min 8 (j - 8 * m)) + bit j := by
  have e1 : min 8 (j + 1 - 8 * m) = (j - 8 * m) + 1 := by omega
  have e2 : min 8 (j - 8 * m) = j - 8 * m := by omega
  have e3 : 8 * m + (j - 8 * m) = j := by omega
  rw [e1, e2, msb_first, e3]

theorem msb_first_same (bit : Nat → Nat) (j m : Nat) (hm : j / 8 ≠ m) :
    msb_first bit (8 * m) (min 8 (j + 1 - 8 * m))
      = msb_first bit (8 * m) (min 8 (j - 8 * m)) := by
  have e1 : min 8 (j + 1 - 8 * m) = min 8 (j - 8 * m) := by omega
  rw [e1]

/-- Shifting bit `j` into byte `j / 8` of the frame of the first `j` bits gives
the frame of the first `j + 1` bits. -/
theorem frame_after_succ (bit : Nat → Nat) (j : Nat) (hj : j < 40) :
    (frame_after bit j).set (j / 8) (2 * (frame_after bit j).getD (j / 8) 0 + bit j)
      = frame_after bit (j + 1) := by
  have hc : j / 8 = 0 ∨ j / 8 = 1 ∨ j / 8 = 2 ∨ j / 8 = 3 ∨ j / 8 = 4 := by omega
  unfold frame_after
  rcases hc with h | h | h | h | h <;> rw [h] <;>
    simp only [List.map, List.set, List.getD_cons_zero, List.getD_cons_succ] <;>
    rw [msb_first_step bit j _ h] <;>
    rw [msb_first_same bit j _ (by omega), msb_first_same bit j _ (by omega),
      msb_first_same bit j _ (by omega), msb_first_same bit j _ (by omega)]

theorem state_at_zero (pin : Pin) : state_at pin 0 = DhtState.init := rfl

/-- One iteration of the sampling loop whose count stays below 255, among the
first 84. -/
theorem sample_loop_step (pin : Pin) (m n : Nat) (hn : n ≤ 83)
    (hc : tick_count pin n ≠ 255) :
    sample_loop pin (m + 1) n (state_at pin n) = sample_loop pin m (n + 1) (state_at pin (n + 1)) := by
  have hcount : (tick_loop pin (state_at pin n).last 255 (state_at pin n).reads 0).2
      = tick_count pin n := rfl
  rw [sample_loop]
  simp only [hcount, beq_iff_eq, if_neg hc]
  by_cases hb : 4 ≤ n ∧ n % 2 = 0
  · have hj : (n - 3) / 2 < 40 := by omega
    have hj8 : (n - 3) / 2 / 8 < 5 := by omega
    have hbit : data_bit pin ((n - 3) / 2) = if tick_count pin n > 16 then 1 else 0 := by
      unfold data_bit
      have e : 4 + 2 * ((n - 3) / 2) = n := by omega
      rw [e]
    have hnext : (n + 1 - 3) / 2 = (n - 3) / 2 + 1 := by omega
    rw [if_pos hb]
    simp only [state_at]
    rw [if_pos hj8]
    congr 1
    simp only [hnext, DhtState.mk.injEq, and_true, true_and]
    refine ⟨?_, rfl, rfl⟩
    rw [← frame_after_succ (data_bit pin) _ hj, hbit]
    congr 1
    split
    · rw [shl_1_or_1]
    · rw [shl_1, Nat.add_zero]
  · have hnext : (n + 1 - 3) / 2 = (n - 3) / 2 := by omega
    rw [if_neg hb]
    congr 1
    simp only [state_at, hnext, DhtState.mk.injEq, true_and]
    exact ⟨rfl, rfl⟩

/-- The iteration of the sampling loop whose count reaches 255 ends the loop. -/
theorem sample_loop_timeout (pin : Pin) (m n : Nat) (hc : tick_count pin n = 255) :
    sample_loop pin (m + 1) n (state_at pin n) = Except.ok (state_timeout pin n) := by
  have hcount : (tick_loop pin (state_at pin n).last 255 (state_at pin n).reads 0).2
      = tick_count pin n := rfl
  rw [sample_loop]
  simp only [hcount, beq_iff_eq, if_pos hc]
  rfl

/-- Iteration 84 of the sampling loop, entered with 40 bits collected, writes
to `data[5]` unless its count reaches 255. -/
theorem sample_loop_overrun (pin : Pin) (m : Nat) (hc : tick_count pin 84 ≠ 255) :
    sample_loop pin (m + 1) 84 (state_at pin 84) = Except.error 5 := by
  have hcount : (tick_loop pin (state_at pin 84).last 255 (state_at pin 84).reads 0).2
      = tick_count pin 84 := rfl
  have hj : (state_at pin 84).j = 40 := rfl
  rw [sample_loop]
  simp only [hcount, beq_iff_eq, if_neg hc]
  rw [if_pos ⟨by decide, trivial⟩, hj, if_neg (by decide)]

/-- While no count reaches 255, the first `k ≤ 84` iterations of the sampling
loop lead to `state_at pin k`. -/
theorem sample_loop_unroll (pin : Pin) (m k : Nat) (hk : k ≤ 84)
    (hc : ∀ i, i < k → tick_count pin i ≠ 255) :
    sample_loop pin (k + m) 0 DhtState.init = sample_loop pin m k (state_at pin k) := by
  induction k generalizing m with
  | zero => rw [Nat.zero_add, state_at_zero]
  | succ k ih =>
    have e : k + 1 + m = k + (m + 1) := by omega
    rw [e, ih (m + 1) (by omega) (fun i hi => hc i (by omega)),
      sample_loop_step pin m k (by omega) (hc k (by omega))]

theorem msb_first_eight (bit : Nat → Nat) (base : Nat) :
    msb_first bit base 8 = ∑ b ∈ Finset.range 8, bit (base + b) * 2 ^ (7 - b) := by
  simp only [msb_first, Finset.sum_range_succ, Finset.sum_range_zero]
  simp only [Nat.add_zero, Nat.reduceSub, Nat.reducePow]
  omega

theorem frame_after_forty (bit : Nat → Nat) :
    frame_after bit 40
      = [msb_first bit 0 8, msb_first bit 8 8, msb_first bit 16 8, msb_first bit 24 8,
          msb_first bit 32 8] := rfl

/-- A run of the sampling loop in which no count reaches 255 up to transition
82 ends at transition 83 or 84 with the state reached after transition 82, or
writes to `data[5]`. -/
theorem sample_after_forty_bits (pin : Pin) (h : ∀ i, i ≤ 82 → tick_count pin i ≠ 255) :
    sample pin = Except.ok (state_timeout pin 83)
      ∨ sample pin = Except.ok (state_timeout pin 84)
      ∨ sample pin = Except.error 5 := by
  unfold sample MAX_TIMINGS
  by_cases h83 : tick_count pin 83 = 255
  · left
    rw [sample_loop_unroll pin 17 83 (by omega) (fun i hi => h i (by omega)),
      sample_loop_timeout pin 16 83 h83]
  · have hall : ∀ i, i < 84 → tick_count pin i ≠ 255 := by
      intro i hi
      rcases Nat.lt_or_ge i 83 with h' | h'
      · exact h i (by omega)
      · have e : i = 83 := by omega
        rw [e]; exact h83
    right
    rw [sample_loop_unroll pin 16 84 (by omega) hall]
    by_cases h84 : tick_count pin 84 = 255
    · left
      rw [sample_loop_timeout pin 15 84 h84]
    · right
      rw [sample_loop_overrun pin 15 h84]

/-! ## Every sequence of tick counts is measured on some line -/

theorem span_succ (c : Nat → Nat) (i k : Nat) :
    span c i (k + 1) = span c i k + (c (i + k) + 2) := by
  induction k generalizing i with
  | zero => simp [span]
  | succ k ih =>
    rw [span, ih (i + 1), span]
    have e : i + 1 + k = i + (k + 1) := by omega
    rw [e]
    omega

theorem line_of_counts_span (c : Nat → Nat) (k i p fuel : Nat)
    (hp : p < c (i + k) + 2) (hf : span c i k + p < fuel) :
    line_of_counts c fuel i (span c i k + p)
      = if p < c (i + k) then decide ((i + k) % 2 = 0) else decide ((i + k) % 2 = 1) := by
  induction k generalizing i fuel with
  | zero =>
    obtain ⟨fuel, rfl⟩ : ∃ f, fuel = f + 1 := ⟨fuel - 1, by omega⟩
    simp only [span, Nat.zero_add, Nat.add_zero] at *
    rw [line_of_counts, if_pos hp]
  | succ k ih =>
    obtain ⟨fuel, rfl⟩ : ∃ f, fuel = f + 1 := ⟨fuel - 1, by omega⟩
    rw [span] at hf ⊢
    have e : i + (k + 1) = i + 1 + k := by omega
    rw [line_of_counts, if_neg (by omega)]
    have e2 : c i + 2 + span c (i + 1) k + p - (c i + 2) = span c (i + 1) k + p := by omega
    rw [e2, e]
    exact ih (i + 1) fuel (by rw [← e]; exact hp) (by omega)

/-- The samples of transition `t` on `pin_of_counts c`. -/
theorem pin_of_counts_span (c : Nat → Nat) (t p : Nat) (hp : p < c t + 2) :
    gpio_get (pin_of_counts c) (span c 0 t + p)
      = if p < c t then (if t % 2 = 0 then 1 else 0) else (if t % 2 = 0 then 0 else 1) := by
  have h := line_of_counts_span c t 0 p (span c 0 t + p + 1) (by rw [Nat.zero_add]; exact hp)
    (by omega)
  rw [Nat.zero_add] at h
  unfold gpio_get pin_of_counts
  rw [h]
  by_cases h1 : p < c t <;> by_cases h2 : t % 2 = 0 <;> simp [h1, h2]
  omega

/-- The tick-counting loop on a line that keeps the level `last` for `c ≤ 255`
samples and, when `c < 255`, leaves it at the next sample. -/
theorem tick_loop_run (pin : Pin) (last reads c : Nat) (hc : c ≤ 255)
    (hsame : ∀ p, p < c → gpio_get pin (reads + p) = last)
    (hdiff : c < 255 → gpio_get pin (reads + c) ≠ last) (fuel k : Nat)
    (hk : k ≤ c) (hf : k + fuel = 255) (hf0 : 0 < fuel) :
    tick_loop pin last fuel (reads + k) k
      = (if c < 255 then reads + c + 1 else reads + 255, c) := by
  induction fuel generalizing k with
  | zero => omega
  | succ fuel ih =>
    rw [tick_loop]
    rcases Nat.lt_or_ge k c with hlt | hge
    · have hs : (gpio_get pin (reads + k) == last) = true := by
        rw [beq_iff_eq]; exact hsame k hlt
      rw [if_pos hs]
      by_cases h255 : (k + 1 == 255) = true
      · have h255' : k + 1 = 255 := by simpa using h255
        have hc255 : c = 255 := by omega
        rw [if_pos h255, hc255, if_neg (by omega)]
        have e : reads + k + 1 = reads + 255 := by omega
        rw [e, h255']
      · have h255' : k + 1 ≠ 255 := by simpa using h255
        rw [if_neg h255]
        have e : reads + k + 1 = reads + (k + 1) := by omega
        rw [e]
        exact ih (k + 1) (by omega) (by omega) (by omega)
    · have hkc : k = c := by omega
      subst hkc
      have hlt : k < 255 := by omega
      have hd : ¬ (gpio_get pin (reads + k) == last) = true := by
        rw [beq_iff_eq]; exact hdiff hlt
      rw [if_neg hd, if_pos hlt]

/-- The samples of `toggling_then_high n`. -/
theorem gpio_get_toggling (n k : Nat) :
    gpio_get (toggling_then_high n) k = if k % 2 = 1 ∨ n ≤ k then 1 else 0 := by
  unfold gpio_get toggling_then_high
  by_cases h : k % 2 = 1 ∨ n ≤ k
  · rw [if_pos h]; simp [h]
  · rw [if_neg h]; simp [h]

/-- While `toggling_then_high n` toggles, every transition takes two samples and
the loop waits on the high level. -/
theorem line_state_toggling (n i : Nat) (h : 2 * i ≤ n) :
    line_state (toggling_then_high n) i = (2 * i, 1) := by
  induction i with
  | zero => rfl
  | succ i ih =>
    have hprev := ih (by omega)
    have hr := tick_loop_run (toggling_then_high n) 1 (2 * i) 0 (by omega)
      (fun p hp => by omega)
      (fun _ => by rw [gpio_get_toggling, if_neg (by omega)]; decide)
      255 0 (by omega) (by omega) (by omega)
    rw [Nat.add_zero, if_pos (by omega)] at hr
    rw [line_state]
    simp only [hprev, hr]
    rw [gpio_get_toggling, if_pos (Or.inl (by omega))]
    have e : 2 * i + 0 + 1 + 1 = 2 * (i + 1) := by omega
    rw [e]

/-- Once `toggling_then_high n` has stopped toggling, the count reaches 255. -/
theorem tick_count_toggling_idle (n i : Nat) (h : 2 * i = n) :
    tick_count (toggling_then_high n) i = 255 := by
  have hr := tick_loop_run (toggling_then_high n) 1 (2 * i) 255 (by omega)
    (fun p _ => by rw [gpio_get_toggling, if_pos (Or.inr (by omega))])
    (fun hlt => by omega)
    255 0 (by omega) (by omega) (by omega)
  rw [Nat.add_zero] at hr
  unfold tick_count
  rw [line_state_toggling n i (by omega), hr]

/-- The counts measured on a line that never changes level: 255 at transition
0 when it is high; 0 at transition 0 and 255 at transition 1 when it is low. -/
theorem tick_count_constant_line :
    tick_count (fun _ => true) 0 = 255
      ∧ tick_count (fun _ => false) 0 = 0
      ∧ tick_count (fun _ => false) 1 = 255 := by
  have h0 : line_state (fun _ => false) 0 = (0, 1) := rfl
  have r1 := tick_loop_run (fun _ => true) 1 0 255 (by omega)
    (fun p _ => rfl) (fun hlt => by omega) 255 0 (by omega) (by omega) (by omega)
  have r2 := tick_loop_run (fun _ => false) 1 0 0 (by omega)
    (fun p hp => by omega) (fun _ => by decide) 255 0 (by omega) (by omega) (by omega)
  have r3 := tick_loop_run (fun _ => false) 0 2 255 (by omega)
    (fun p _ => rfl) (fun hlt => by omega) 255 0 (by omega) (by omega) (by omega)
  rw [Nat.add_zero] at r1 r2 r3
  have h1 : line_state (fun _ => false) 1 = (2, 0) := by
    rw [line_state]
    simp only [h0, r2]
    rfl
  refine ⟨?_, ?_, ?_⟩
  · unfold tick_count
    have h0' : line_state (fun _ => true) 0 = (0, 1) := rfl
    rw [h0', r1]
  · unfold tick_count
    rw [h0, r2]
  · unfold tick_count
    rw [h1, r3]

/-- Every sequence of counts in `0..255` is realised: on `pin_of_counts c` the
sampling loop measures `c t` at every transition `t` not preceded by a count of
255. -/
theorem tick_count_pin_of_counts (c : Nat → Nat) (hc : ∀ i, c i ≤ 255) (t : Nat)
    (h : ∀ i, i < t → c i ≠ 255) :
    line_state (pin_of_counts c) t = (span c 0 t, if t % 2 = 0 then 1 else 0)
      ∧ tick_count (pin_of_counts c) t = c t := by
  have key : ∀ t, line_state (pin_of_counts c) t = (span c 0 t, if t % 2 = 0 then 1 else 0) →
      tick_loop (pin_of_counts c) (line_state (pin_of_counts c) t).2 255
          (line_state (pin_of_counts c) t).1 0
        = (if c t < 255 then span c 0 t + c t + 1 else span c 0 t + 255, c t) := by
    intro t hl
    rw [hl]
    have := tick_loop_run (pin_of_counts c) (if t % 2 = 0 then 1 else 0) (span c 0 t) (c t)
      (hc t)
      (fun p hp => by rw [pin_of_counts_span c t p (by omega), if_pos hp])
      (fun _ => by
        rw [pin_of_counts_span c t (c t) (by omega), if_neg (by omega)]
        by_cases h2 : t % 2 = 0 <;> simp [h2])
      255 0 (by omega) (by omega) (by omega)
    rw [Nat.add_zero] at this
    exact this
  have hl : ∀ t, (∀ i, i < t → c i ≠ 255) →
      line_state (pin_of_counts c) t = (span c 0 t, if t % 2 = 0 then 1 else 0) := by
    intro t
    induction t with
    | zero => intro _; rfl
    | succ t ih =>
      intro h
      have hprev := ih (fun i hi => h i (by omega))
      have ht : c t < 255 := lt_of_le_of_ne (hc t) (h t (by omega))
      have hk := key t hprev
      rw [if_pos ht] at hk
      rw [line_state]
      simp only [hk]
      rw [span_succ, Nat.zero_add]
      have hg := pin_of_counts_span c t (c t + 1) (by omega)
      rw [if_neg (by omega)] at hg
      have e : span c 0 t + c t + 1 = span c 0 t + (c t + 1) := by omega
      rw [e, hg]
      have e2 : span c 0 t + (c t + 1) + 1 = span c 0 t + (c t + 2) := by omega
      rw [e2]
      by_cases h2 : t % 2 = 0
      · have h3 : ¬ (t + 1) % 2 = 0 := by omega
        rw [if_pos h2, if_neg h3]
      · have h3 : (t + 1) % 2 = 0 := by omega
        rw [if_neg h2, if_pos h3]
  refine ⟨hl t h, ?_⟩
  unfold tick_count
  rw [key t (hl t h)]

/-! ## Every frame of five bytes is received from some line -/

theorem msb_first_congr (bit1 bit2 : Nat → Nat) (base len : Nat)
    (h : ∀ k, base ≤ k → k < base + len → bit1 k = bit2 k) :
    msb_first bit1 base len = msb_first bit2 base len := by
  induction len with
  | zero => rfl
  | succ len ih =>
    rw [msb_first, msb_first, ih (fun k h1 h2 => h k h1 (by omega)), h (base + len) (by omega)
      (by omega)]

theorem byte_of_bits (x : Nat) (hx : x < 256) :
    2 * (2 * (2 * (2 * (2 * (2 * (2 * (2 * 0 + x / 128 % 2) + x / 64 % 2) + x / 32 % 2)
      + x / 16 % 2) + x / 8 % 2) + x / 4 % 2) + x / 2 % 2) + x / 1 % 2 = x := by
  have s7 : 2 * 0 + x / 128 % 2 = x / 128 := by omega
  have s6 : 2 * (x / 128) + x / 64 % 2 = x / 64 := by omega
  have s5 : 2 * (x / 64) + x / 32 % 2 = x / 32 := by omega
  have s4 : 2 * (x / 32) + x / 16 % 2 = x / 16 := by omega
  have s3 : 2 * (x / 16) + x / 8 % 2 = x / 8 := by omega
  have s2 : 2 * (x / 8) + x / 4 % 2 = x / 4 := by omega
  have s1 : 2 * (x / 4) + x / 2 % 2 = x / 2 := by omega
  have s0 : 2 * (x / 2) + x / 1 % 2 = x := by omega
  rw [s7, s6, s5, s4, s3, s2, s1, s0]

theorem counts_of_frame_le (frame : List Nat) (i : Nat) : counts_of_frame frame i ≤ 255 := by
  unfold counts_of_frame
  split
  · exact Nat.le_refl _
  · split <;> decide

theorem counts_of_frame_lt (frame : List Nat) (i : Nat) (hi : i ≤ 82) :
    counts_of_frame frame i ≠ 255 := by
  unfold counts_of_frame
  rw [if_neg (by omega)]
  split <;> decide

theorem tick_count_transmission (frame : List Nat) (i : Nat) (hi : i ≤ 83) :
    tick_count (transmission frame) i = counts_of_frame frame i :=
  (tick_count_pin_of_counts (counts_of_frame frame) (counts_of_frame_le frame) i
    (fun k hk => counts_of_frame_lt frame k (by omega))).2

theorem data_bit_transmission (frame : List Nat) (k : Nat) (hk : k < 40) :
    data_bit (transmission frame) k = frame_bit frame k := by
  have e : (4 + 2 * k - 4) / 2 = k := by omega
  have hc : counts_of_frame frame (4 + 2 * k) = if frame_bit frame k = 1 then 17 else 16 := by
    unfold counts_of_frame
    rw [if_neg (by omega), e]
    by_cases h : frame_bit frame k = 1
    · rw [if_pos h, if_pos ⟨by omega, by omega, h⟩]
    · rw [if_neg h, if_neg (fun hh => h hh.2.2)]
  have hb : frame_bit frame k = 0 ∨ frame_bit frame k = 1 := by
    unfold frame_bit; omega
  unfold data_bit
  rw [tick_count_transmission frame _ (by omega), hc]
  rcases hb with h | h <;> rw [h] <;> rfl

/-- The sampling phase on the line `transmission [b0, b1, b2, b3, b4]` ends at
transition 83 with 40 bits collected and the frame `[b0, b1, b2, b3, b4]`. -/
theorem sample_transmission (b0 b1 b2 b3 b4 : Nat)
    (h0 : b0 < 256) (h1 : b1 < 256) (h2 : b2 < 256) (h3 : b3 < 256) (h4 : b4 < 256) :
    ∃ st, sample (transmission [b0, b1, b2, b3, b4]) = Except.ok st
      ∧ st.data = [b0, b1, b2, b3, b4] ∧ st.j = 40 := by
  have hlt : ∀ i, i < 83 → tick_count (transmission [b0, b1, b2, b3, b4]) i ≠ 255 := by
    intro i hi
    rw [tick_count_transmission _ i (by omega)]
    exact counts_of_frame_lt _ i (by omega)
  have h83 : tick_count (transmission [b0, b1, b2, b3, b4]) 83 = 255 := by
    rw [tick_count_transmission _ 83 (by omega)]
    rfl
  refine ⟨state_timeout (transmission [b0, b1, b2, b3, b4]) 83, ?_, ?_, rfl⟩
  · unfold sample MAX_TIMINGS
    rw [sample_loop_unroll _ 17 83 (by omega) hlt, sample_loop_timeout _ 16 83 h83]
  · show frame_after (data_bit (transmission [b0, b1, b2, b3, b4])) 40 = _
    rw [frame_after_forty]
    rw [msb_first_congr _ (frame_bit [b0, b1, b2, b3, b4]) 0 8
        (fun k _ hk => data_bit_transmission _ k (by omega)),
      msb_first_congr _ (frame_bit [b0, b1, b2, b3, b4]) 8 8
        (fun k _ hk => data_bit_transmission _ k (by omega)),
      msb_first_congr _ (frame_bit [b0, b1, b2, b3, b4]) 16 8
        (fun k _ hk => data_bit_transmission _ k (by omega)),
      msb_first_congr _ (frame_bit [b0, b1, b2, b3, b4]) 24 8
        (fun k _ hk => data_bit_transmission _ k (by omega)),
      msb_first_congr _ (frame_bit [b0, b1, b2, b3, b4]) 32 8
        (fun k _ hk => data_bit_transmission _ k (by omega))]
    simp only [msb_first, frame_bit, Nat.reduceAdd, Nat.reduceDiv, Nat.reduceMod, Nat.reduceSub,
      Nat.reducePow, List.getD_cons_zero, List.getD_cons_succ, Nat.add_zero]
    rw [byte_of_bits b0 h0, byte_of_bits b1 h1, byte_of_bits b2 h2, byte_of_bits b3 h3,
      byte_of_bits b4 h4]

/-! ## Bits, frames and timeouts -/

/-- C4: when no tick count reaches 255 up to transition 82, the loop has
collected `(n - 3) / 2` bits after its first `n ≤ 83` iterations (none from
transitions 0..3, one from every even transition from 4 on); after transition
82 it holds 40 bits and frame byte `m` is the sum over `b = 0..7` of
`bit (8m+b) * 2^(7-b)`, where bit `k` is 1 if `c_(4+2k) > 16` and 0 otherwise;
a run of `read_from_dht` that completes its sampling phase decodes that frame. -/
theorem read_from_dht_packs_bits_msb_first (pin : Pin)
    (h : ∀ i, i ≤ 82 → tick_count pin i ≠ 255) :
    (∀ n, n ≤ 83 → ∃ st, sample_loop pin n 0 DhtState.init = Except.ok st
        ∧ st.j = (n - 3) / 2)
      ∧ (∃ st, sample_loop pin 83 0 DhtState.init = Except.ok st
        ∧ st.j = 40
        ∧ st.data.length = 5
        ∧ (∀ m, m < 5 → st.data.getD m 0
            = ∑ b ∈ Finset.range 8,
                (if tick_count pin (4 + 2 * (8 * m + b)) > 16 then 1 else 0) * 2 ^ (7 - b))
        ∧ (∀ st2, sample pin = Except.ok st2 → st2.j = 40 ∧ st2.data = st.data)) := by
  constructor
  · intro n hn
    refine ⟨state_at pin n, ?_, rfl⟩
    have e := sample_loop_unroll pin 0 n (by omega) (fun i hi => h i (by omega))
    rw [Nat.add_zero] at e
    rw [e]
    rfl
  · refine ⟨state_at pin 83, ?_, rfl, rfl, ?_, ?_⟩
    · have e := sample_loop_unroll pin 0 83 (by omega) (fun i hi => h i (by omega))
      rw [Nat.add_zero] at e
      rw [e]
      rfl
    · intro m hm
      have hd : (state_at pin 83).data = frame_after (data_bit pin) 40 := rfl
      rw [hd, frame_after_forty]
      simp only [msb_first_eight, data_bit]
      have hc : m = 0 ∨ m = 1 ∨ m = 2 ∨ m = 3 ∨ m = 4 := by omega
      rcases hc with e | e | e | e | e <;> subst e <;> rfl
    · intro st2 h2
      rcases sample_after_forty_bits pin h with e | e | e <;> rw [e] at h2
      · cases h2; exact ⟨rfl, rfl⟩
      · cases h2; exact ⟨rfl, rfl⟩
      · cases h2

/-- Instance of C4: on a line transmitting the frame
`[0x02, 0x8C, 0x01, 0x15, 0xA4]` with counts of 17 for the bits 1 and 16 for the
bits 0, the loop holds exactly that frame after transition 82. -/
theorem read_from_dht_packs_bits_msb_first_witness :
    ∃ st, sample_loop (transmission [0x02, 0x8C, 0x01, 0x15, 0xA4]) 83 0 DhtState.init
        = Except.ok st
      ∧ st.j = 40
      ∧ st.data = [0x02, 0x8C, 0x01, 0x15, 0xA4] := by
  obtain ⟨-, st, hs, hj, -, -, hfull⟩ :=
    read_from_dht_packs_bits_msb_first (transmission [0x02, 0x8C, 0x01, 0x15, 0xA4])
      (fun i hi => by
        rw [tick_count_transmission _ i (by omega)]
        exact counts_of_frame_lt _ i hi)
  obtain ⟨st2, hs2, hd2, -⟩ := sample_transmission 0x02 0x8C 0x01 0x15 0xA4
    (by decide) (by decide) (by decide) (by decide) (by decide)
  exact ⟨st, hs, hj, by rw [← (hfull st2 hs2).2, hd2]⟩

/-- The run that stops at the first transition `t ≤ 82` whose count reaches
255. -/
theorem sample_first_timeout (pin : Pin) (t m : Nat) (ht : t ≤ 82)
    (hc : tick_count pin t = 255) (hmin : ∀ k, k < t → tick_count pin k ≠ 255) :
    sample_loop pin (t + (m + 1)) 0 DhtState.init = Except.ok (state_timeout pin t) := by
  rw [sample_loop_unroll pin (m + 1) t (by omega) hmin, sample_loop_timeout pin m t hc]

/-- C5: when the count of some transition `i ≤ 82` reaches 255, i.e. before 40
data bits have been collected, `read_from_dht` stops sampling at the first such
transition `t`: the run equals the run cut after iteration `t`, which consumes
256 samples in that iteration and none afterwards; the bits and frame are those
collected before `t`, fewer than 40; the decode fails (`Bad data`) and the
caller's reading is unchanged. -/
theorem read_from_dht_timeout_keeps_reading (pin : Pin) (i : Nat) (hi : i ≤ 82)
    (hc : tick_count pin i = 255) (result : dht_reading) :
    ∃ t, t ≤ i ∧ tick_count pin t = 255 ∧ (∀ k, k < t → tick_count pin k ≠ 255)
      ∧ ∃ st, sample pin = Except.ok st
        ∧ sample_loop pin (t + 1) 0 DhtState.init = Except.ok st
        ∧ st.reads = (line_state pin t).1 + 256
        ∧ (∃ st0, sample_loop pin t 0 DhtState.init = Except.ok st0
            ∧ st.j = st0.j ∧ st.data = st0.data)
        ∧ st.j < 40
        ∧ read_from_dht pin result = Except.ok (result, ["Bad data\n"]) := by
  have hex : ∃ t, tick_count pin t = 255 := ⟨i, hc⟩
  have hle : Nat.find hex ≤ i := Nat.find_min' hex hc
  have ht : Nat.find hex ≤ 82 := by omega
  have hmin : ∀ k, k < Nat.find hex → tick_count pin k ≠ 255 := fun k hk => Nat.find_min hex hk
  have hj : (state_timeout pin (Nat.find hex)).j < 40 := by
    show (Nat.find hex - 3) / 2 < 40
    omega
  have hs : sample pin = Except.ok (state_timeout pin (Nat.find hex)) := by
    have e : MAX_TIMINGS = Nat.find hex + ((99 - Nat.find hex) + 1) := by
      unfold MAX_TIMINGS; omega
    unfold sample
    rw [e]
    exact sample_first_timeout pin _ _ ht (Nat.find_spec hex) hmin
  refine ⟨Nat.find hex, hle, Nat.find_spec hex, hmin, state_timeout pin (Nat.find hex), hs,
    sample_first_timeout pin _ 0 ht (Nat.find_spec hex) hmin,
    line_state_timeout pin _ (Nat.find_spec hex), ⟨state_at pin (Nat.find hex), ?_, rfl, rfl⟩,
    hj, ?_⟩
  · have e := sample_loop_unroll pin 0 (Nat.find hex) (by omega) hmin
    rw [Nat.add_zero] at e
    rw [e]
    rfl
  · rw [read_from_dht_ok pin _ result hs, decode_reject _ _ result (Or.inl hj)]

/-- Instance of C5: the line stops toggling after 44 samples, so that the count
of transition 22, which times the 10th data bit, reaches 255. -/
theorem read_from_dht_timeout_keeps_reading_witness :
    read_from_dht (toggling_then_high 44) { humidity := 55, temp_celsius := 21 }
      = Except.ok ({ humidity := 55, temp_celsius := 21 }, ["Bad data\n"]) := by
  obtain ⟨t, -, -, -, st, -, -, -, -, -, h⟩ :=
    read_from_dht_timeout_keeps_reading (toggling_then_high 44) 22 (by decide)
      (tick_count_toggling_idle 44 22 rfl)
      { humidity := 55, temp_celsius := 21 }
  exact h

/-! ## Decoding a received frame -/

/-- C1: for every frame of five bytes with at least 40 bits collected and
`b4 = (b0+b1+b2+b3) mod 256`, `read_from_dht` stores humidity `(256*b0+b1)/10`,
or `b0` if that quotient exceeds 100, and temperature `(256*(b2 mod 128)+b3)/10`,
or `b2` if that quotient exceeds 125, negated when bit 7 of `b2` is set; this
holds of the decoder on the frame and of every call of `read_from_dht` whose
sampling phase ends with that frame. -/
theorem read_from_dht_decodes_valid_frame (b0 b1 b2 b3 b4 j : Nat) (result : dht_reading)
    (h0 : b0 < 256) (h1 : b1 < 256) (h2 : b2 < 256) (h3 : b3 < 256) (h4 : b4 < 256)
    (hj : 40 ≤ j) (hsum : b4 = (b0 + b1 + b2 + b3) % 256) :
    (decode [b0, b1, b2, b3, b4] j result).1 =
        { humidity :=
            if ((256 * b0 + b1 : Nat) : ℚ) / 10 > 100 then (b0 : ℚ)
            else ((256 * b0 + b1 : Nat) : ℚ) / 10,
          temp_celsius :=
            if b2.testBit 7 then
              -(if ((256 * (b2 % 128) + b3 : Nat) : ℚ) / 10 > 125 then (b2 : ℚ)
                else ((256 * (b2 % 128) + b3 : Nat) : ℚ) / 10)
            else
              (if ((256 * (b2 % 128) + b3 : Nat) : ℚ) / 10 > 125 then (b2 : ℚ)
                else ((256 * (b2 % 128) + b3 : Nat) : ℚ) / 10) }
      ∧ (∀ pin st, sample pin = Except.ok st → st.data = [b0, b1, b2, b3, b4] → st.j = j →
          read_from_dht pin result = Except.ok (decode [b0, b1, b2, b3, b4] j result))
      ∧ (∃ st, sample (transmission [b0, b1, b2, b3, b4]) = Except.ok st
          ∧ st.data = [b0, b1, b2, b3, b4] ∧ st.j = 40) := by
  refine ⟨?_, ?_, sample_transmission b0 b1 b2 b3 b4 h0 h1 h2 h3 h4⟩
  · rw [decode_accept b0 b1 b2 b3 b4 j result hj hsum]
  · intro pin st hs hd hj'
    rw [read_from_dht_ok pin st result hs, hd, hj']

/-- Instance of C1: a line transmitting the frame `[0x01, 0x90, 0x80, 0x65, 0x76]`
yields the reading 40.0 % and -10.1 °C. -/
theorem read_from_dht_decodes_valid_frame_witness :
    (read_from_dht (transmission [0x01, 0x90, 0x80, 0x65, 0x76])
        { humidity := 0, temp_celsius := 0 }).map Prod.fst
      = Except.ok { humidity := 40, temp_celsius := -(101 / 10) } := by
  obtain ⟨hdec, hrun, st, hs, hd, hj⟩ :=
    read_from_dht_decodes_valid_frame 0x01 0x90 0x80 0x65 0x76 40
      { humidity := 0, temp_celsius := 0 }
      (by decide) (by decide) (by decide) (by decide) (by decide) (by decide) (by decide)
  rw [hrun _ st hs hd hj]
  show Except.ok _ = _
  rw [hdec]
  have hbit : Nat.testBit 0x80 7 = true := by decide
  norm_num [hbit]

/-- C2: when fewer than 40 bits were collected, or the fifth byte differs from
`(b0+b1+b2+b3) mod 256`, `read_from_dht` leaves both fields of the caller's
reading as they were; this holds of the decoder on any such frame and of every
call of `read_from_dht` whose sampling phase ends with it. -/
theorem read_from_dht_keeps_reading_on_bad_frame (data : List Nat) (j : Nat)
    (result : dht_reading)
    (h : j < 40 ∨ data.getD 4 0
      ≠ (data.getD 0 0 + data.getD 1 0 + data.getD 2 0 + data.getD 3 0) % 256) :
    (decode data j result).1.humidity = result.humidity
      ∧ (decode data j result).1.temp_celsius = result.temp_celsius
      ∧ (∀ pin st, sample pin = Except.ok st → st.data = data → st.j = j →
          read_from_dht pin result = Except.ok (result, ["Bad data\n"])) := by
  refine ⟨?_, ?_, ?_⟩
  · rw [decode_reject data j result h]
  · rw [decode_reject data j result h]
  · intro pin st hs hd hj
    rw [read_from_dht_ok pin st result hs, hd, hj, decode_reject data j result h]

/-- Instance of C2: a line transmitting a frame whose checksum byte is off by
one. -/
theorem read_from_dht_keeps_reading_on_bad_frame_witness :
    read_from_dht (transmission [1, 144, 0, 215, 105]) { humidity := 55, temp_celsius := 21 }
      = Except.ok ({ humidity := 55, temp_celsius := 21 }, ["Bad data\n"]) := by
  obtain ⟨st, hs, hd, hj⟩ := sample_transmission 1 144 0 215 105
    (by decide) (by decide) (by decide) (by decide) (by decide)
  exact (read_from_dht_keeps_reading_on_bad_frame [1, 144, 0, 215, 105] 40
    { humidity := 55, temp_celsius := 21 } (Or.inr (by decide))).2.2 _ st hs hd hj

/-- C3, as stated, fails: the bytes `0x02, 0x8C, 0x01, 0x15` sum to 164 = `0xA4`,
not `0x9C`, so the frame `[0x02, 0x8C, 0x01, 0x15, 0x9C]` is rejected and the
reading is not set to (2.0, 27.7). -/
theorem scenario_frame_0x9C_rejected :
    decode [0x02, 0x8C, 0x01, 0x15, 0x9C] 40 { humidity := 0, temp_celsius := 0 }
        = ({ humidity := 0, temp_celsius := 0 }, ["Bad data\n"])
      ∧ (decode [0x02, 0x8C, 0x01, 0x15, 0x9C] 40 { humidity := 0, temp_celsius := 0 }).1
        ≠ { humidity := 2, temp_celsius := 277 / 10 } := by
  have h := decode_reject [0x02, 0x8C, 0x01, 0x15, 0x9C] 40
    { humidity := 0, temp_celsius := 0 } (Or.inr (by decide))
  refine ⟨h, ?_⟩
  rw [h]
  intro hc
  have h2 := congrArg dht_reading.humidity hc
  norm_num at h2

/-- C3, amended: the frame `[0x02, 0x8C, 0x01, 0x15, 0x9C]` fails the checksum
test for every caller's reading, which is left unchanged; with the checksum
byte `0xA4` the frame `[0x02, 0x8C, 0x01, 0x15, 0xA4]` is accepted and yields
humidity 65.2 (652/10 does not exceed 100, so the fallback is not taken) and
temperature 27.7; the same holds of `read_from_dht` on lines transmitting
these frames. -/
theorem scenario_frame_0xA4_accepted (result : dht_reading) :
    (decode [0x02, 0x8C, 0x01, 0x15, 0x9C] 40 result).1 = result
      ∧ ¬ (((256 * 0x02 + 0x8C : Nat) : ℚ) / 10 > 100)
      ∧ decode [0x02, 0x8C, 0x01, 0x15, 0xA4] 40 result
        = ({ humidity := 652 / 10, temp_celsius := 277 / 10 }, [])
      ∧ read_from_dht (transmission [0x02, 0x8C, 0x01, 0x15, 0x9C]) result
        = Except.ok (result, ["Bad data\n"])
      ∧ read_from_dht (transmission [0x02, 0x8C, 0x01, 0x15, 0xA4]) result
        = Except.ok ({ humidity := 652 / 10, temp_celsius := 277 / 10 }, []) := by
  have hbad := decode_reject [0x02, 0x8C, 0x01, 0x15, 0x9C] 40 result (Or.inr (by decide))
  have hgood : decode [0x02, 0x8C, 0x01, 0x15, 0xA4] 40 result
      = ({ humidity := 652 / 10, temp_celsius := 277 / 10 }, []) := by
    rw [decode_accept 0x02 0x8C 0x01 0x15 0xA4 40 result (by decide) (by decide)]
    have hbit : Nat.testBit 0x01 7 = false := by decide
    norm_num [hbit]
  refine ⟨by rw [hbad], by norm_num, hgood, ?_, ?_⟩
  · obtain ⟨st, hs, hd, hj⟩ := sample_transmission 0x02 0x8C 0x01 0x15 0x9C
      (by decide) (by decide) (by decide) (by decide) (by decide)
    rw [read_from_dht_ok _ st result hs, hd, hj, hbad]
  · obtain ⟨st, hs, hd, hj⟩ := sample_transmission 0x02 0x8C 0x01 0x15 0xA4
      (by decide) (by decide) (by decide) (by decide) (by decide)
    rw [read_from_dht_ok _ st result hs, hd, hj, hgood]

/-! ## Threshold evaluation -/

theorem gpio_put_same (out : GpioOut) (gpio : Nat) (value : Bool) :
    gpio_put out gpio value gpio = value := by
  simp [gpio_put]

theorem gpio_put_other (out : GpioOut) (gpio g : Nat) (value : Bool) (h : g ≠ gpio) :
    gpio_put out gpio value g = out g := by
  simp [gpio_put, h]

/-- The level of the heater relay after a threshold evaluation: high in the
low band, low in the middle band, unchanged in the high band. -/
theorem evaluate_thresholds_heater (reading : dht_reading) (out : GpioOut) :
    evaluate_thresholds reading out HEAT_MAT_PIN
      = if reading.temp_celsius ≥ HIGH_TEMP_RANGE then out HEAT_MAT_PIN
        else if reading.temp_celsius ≤ LOW_TEMP_RANGE then true else false := by
  unfold evaluate_thresholds
  by_cases h1 : reading.temp_celsius ≥ HIGH_TEMP_RANGE
  · simp only [if_pos h1]
    split <;> simp [gpio_put, HEAT_MAT_PIN, LOW_HUM_LED, HIGH_TEMP_LED]
  · simp only [if_neg h1]
    by_cases h2 : reading.temp_celsius ≤ LOW_TEMP_RANGE
    · simp only [if_pos h2]
      split <;> simp [gpio_put, HEAT_MAT_PIN, LOW_HUM_LED]
    · simp only [if_neg h2]
      split <;> simp [gpio_put, HEAT_MAT_PIN, LOW_HUM_LED]

/-- C11: one threshold evaluation drives HIGH_TEMP_LED high when the
temperature is at least 28.0; drives LOW_TEMP_LED and the heater relay high
when it is at most 22.0; drives HIGH_TEMP_LED, LOW_TEMP_LED and the heater relay
low when it lies strictly between; and drives LOW_HUM_LED high if the humidity
is at most 75.0 and low otherwise. -/
theorem evaluate_thresholds_outputs (reading : dht_reading) (out : GpioOut) :
    (reading.temp_celsius ≥ 28 → evaluate_thresholds reading out HIGH_TEMP_LED = true)
      ∧ (reading.temp_celsius ≤ 22 →
          evaluate_thresholds reading out LOW_TEMP_LED = true
            ∧ evaluate_thresholds reading out HEAT_MAT_PIN = true)
      ∧ (22 < reading.temp_celsius → reading.temp_celsius < 28 →
          evaluate_thresholds reading out HIGH_TEMP_LED = false
            ∧ evaluate_thresholds reading out LOW_TEMP_LED = false
            ∧ evaluate_thresholds reading out HEAT_MAT_PIN = false)
      ∧ (reading.humidity ≤ 75 → evaluate_thresholds reading out LOW_HUM_LED = true)
      ∧ (75 < reading.humidity → evaluate_thresholds reading out LOW_HUM_LED = false) := by
  refine ⟨?_, ?_, ?_, ?_, ?_⟩
  · intro h
    have h1 : reading.temp_celsius ≥ HIGH_TEMP_RANGE := h
    unfold evaluate_thresholds
    simp only [if_pos h1]
    split <;> simp [gpio_put, HIGH_TEMP_LED, LOW_HUM_LED]
  · intro h
    have h1 : ¬ reading.temp_celsius ≥ HIGH_TEMP_RANGE := by
      unfold HIGH_TEMP_RANGE; intro h'; linarith
    have h2 : reading.temp_celsius ≤ LOW_TEMP_RANGE := h
    unfold evaluate_thresholds
    simp only [if_neg h1, if_pos h2]
    constructor <;> split <;> simp [gpio_put, LOW_TEMP_LED, HEAT_MAT_PIN, LOW_HUM_LED]
  · intro hlo hhi
    have h1 : ¬ reading.temp_celsius ≥ HIGH_TEMP_RANGE := by
      unfold HIGH_TEMP_RANGE; intro h'; linarith
    have h2 : ¬ reading.temp_celsius ≤ LOW_TEMP_RANGE := by
      unfold LOW_TEMP_RANGE; intro h'; linarith
    unfold evaluate_thresholds
    simp only [if_neg h1, if_neg h2]
    refine ⟨?_, ?_, ?_⟩ <;> split <;>
      simp [gpio_put, HIGH_TEMP_LED, LOW_TEMP_LED, HEAT_MAT_PIN, LOW_HUM_LED]
  · intro h
    have h1 : reading.humidity ≤ LOW_HUM_RANGE := h
    unfold evaluate_thresholds
    simp only [if_pos h1]
    simp [gpio_put]
  · intro h
    have h1 : ¬ reading.humidity ≤ LOW_HUM_RANGE := by
      unfold LOW_HUM_RANGE; intro h'; linarith
    unfold evaluate_thresholds
    simp only [if_neg h1]
    simp [gpio_put]

/-- Instance of C11 at the boundaries: 22.0 is classified low, 28.0 high and
humidity 75.0 low. -/
theorem evaluate_thresholds_outputs_witness :
    (evaluate_thresholds { humidity := 75, temp_celsius := 22 } all_low LOW_TEMP_LED = true
        ∧ evaluate_thresholds { humidity := 75, temp_celsius := 22 } all_low HEAT_MAT_PIN = true)
      ∧ evaluate_thresholds { humidity := 75, temp_celsius := 22 } all_low LOW_HUM_LED = true
      ∧ evaluate_thresholds { humidity := 75, temp_celsius := 28 } all_low HIGH_TEMP_LED = true :=
  ⟨(evaluate_thresholds_outputs { humidity := 75, temp_celsius := 22 } all_low).2.1
      (le_refl _),
    (evaluate_thresholds_outputs { humidity := 75, temp_celsius := 22 } all_low).2.2.2.1
      (le_refl _),
    (evaluate_thresholds_outputs { humidity := 75, temp_celsius := 28 } all_low).1
      (le_refl _)⟩


/-- A line transmitting a frame of five bytes is decoded from that frame. -/
theorem read_from_dht_transmission (b0 b1 b2 b3 b4 : Nat) (result : dht_reading)
    (h0 : b0 < 256) (h1 : b1 < 256) (h2 : b2 < 256) (h3 : b3 < 256) (h4 : b4 < 256) :
    read_from_dht (transmission [b0, b1, b2, b3, b4]) result
      = Except.ok (decode [b0, b1, b2, b3, b4] 40 result) := by
  obtain ⟨st, hs, hd, hj⟩ := sample_transmission b0 b1 b2 b3 b4 h0 h1 h2 h3 h4
  rw [read_from_dht_ok _ st result hs, hd, hj]

/-- An iteration of the control loop whose read returns. -/
theorem main_iteration_ok (pin : Pin) (reading : dht_reading) (out : GpioOut)
    (r : dht_reading × List String) (h : read_from_dht pin reading = Except.ok r) :
    main_iteration pin reading out
      = Except.ok (r.1, display_nums r.1, evaluate_thresholds r.1 out) := by
  simp only [main_iteration, h]

/-- C12 fails on the code: an evaluation at 20.0 °C drives the heater relay
high, and the next evaluation at 30.0 °C takes the branch `>= HIGH_TEMP_RANGE`,
which only writes HIGH_TEMP_LED, so the relay is still high although
30.0 > 22.0; the same on two iterations of the control loop whose lines
transmit the frames of (50.0 %, 20.0 °C) and (50.0 %, 30.0 °C). -/
theorem heater_relay_stays_high_above_28 :
    evaluate_thresholds { humidity := 50, temp_celsius := 30 }
        (evaluate_thresholds { humidity := 50, temp_celsius := 20 } all_low) HEAT_MAT_PIN = true
      ∧ ¬ ((30 : ℚ) ≤ 22)
      ∧ (∀ reading : dht_reading, ∃ d1 out1 d2 out2,
          main_iteration (transmission [0x01, 0xF4, 0x00, 0xC8, 0xBD]) reading all_low
              = Except.ok ({ humidity := 50, temp_celsius := 20 }, d1, out1)
            ∧ main_iteration (transmission [0x01, 0xF4, 0x01, 0x2C, 0x22])
                { humidity := 50, temp_celsius := 20 } out1
              = Except.ok ({ humidity := 50, temp_celsius := 30 }, d2, out2)
            ∧ out2 HEAT_MAT_PIN = true) := by
  have hheat : evaluate_thresholds { humidity := 50, temp_celsius := 30 }
      (evaluate_thresholds { humidity := 50, temp_celsius := 20 } all_low) HEAT_MAT_PIN
        = true := by
    rw [evaluate_thresholds_heater, if_pos (by norm_num [HIGH_TEMP_RANGE]),
      evaluate_thresholds_heater, if_neg (by norm_num [HIGH_TEMP_RANGE]),
      if_pos (by norm_num [LOW_TEMP_RANGE])]
  refine ⟨hheat, by norm_num, ?_⟩
  intro reading
  have hb0 : Nat.testBit 0x00 7 = false := by decide
  have hb1 : Nat.testBit 0x01 7 = false := by decide
  have hd1 : decode [0x01, 0xF4, 0x00, 0xC8, 0xBD] 40 reading
      = ({ humidity := 50, temp_celsius := 20 }, []) := by
    rw [decode_accept 0x01 0xF4 0x00 0xC8 0xBD 40 reading (by decide) (by decide)]
    norm_num [hb0]
  have hd2 : decode [0x01, 0xF4, 0x01, 0x2C, 0x22] 40 { humidity := 50, temp_celsius := 20 }
      = ({ humidity := 50, temp_celsius := 30 }, []) := by
    rw [decode_accept 0x01 0xF4 0x01 0x2C 0x22 40 _ (by decide) (by decide)]
    norm_num [hb1]
  have hr1 : read_from_dht (transmission [0x01, 0xF4, 0x00, 0xC8, 0xBD]) reading
      = Except.ok ({ humidity := 50, temp_celsius := 20 }, []) := by
    rw [read_from_dht_transmission 0x01 0xF4 0x00 0xC8 0xBD reading (by decide) (by decide)
      (by decide) (by decide) (by decide), hd1]
  have hr2 : read_from_dht (transmission [0x01, 0xF4, 0x01, 0x2C, 0x22])
      { humidity := 50, temp_celsius := 20 }
      = Except.ok ({ humidity := 50, temp_celsius := 30 }, []) := by
    rw [read_from_dht_transmission 0x01 0xF4 0x01 0x2C 0x22 _ (by decide) (by decide)
      (by decide) (by decide) (by decide), hd2]
  exact ⟨display_nums { humidity := 50, temp_celsius := 20 },
    evaluate_thresholds { humidity := 50, temp_celsius := 20 } all_low,
    display_nums { humidity := 50, temp_celsius := 30 },
    evaluate_thresholds { humidity := 50, temp_celsius := 30 }
      (evaluate_thresholds { humidity := 50, temp_celsius := 20 } all_low),
    main_iteration_ok _ _ _ _ hr1, main_iteration_ok _ _ _ _ hr2, hheat⟩

/-! ## Negative readings on the display -/

/-- C13, as stated, fails: for the readings (65, -27) and (65, 27) the digit
buffers differ; the first holds -7 + 128 and -2 at positions 5 and 6, the second
7 + 128 and 2. -/
theorem display_nums_keeps_sign_of_digits :
    display_buffer { humidity := 65, temp_celsius := -27 } = [133, 6, 0, 15, 0, 121, -2, 15]
      ∧ display_buffer { humidity := 65, temp_celsius := 27 } = [133, 6, 0, 15, 0, 135, 2, 15]
      ∧ display_buffer { humidity := 65, temp_celsius := -27 }
        ≠ display_buffer { humidity := 65, temp_celsius := 27 } := by
  have h65 : truncToInt (65 : ℚ) = 65 := truncToInt_intCast 65
  have h27 : truncToInt (27 : ℚ) = 27 := truncToInt_intCast 27
  have hm27 : truncToInt (-27 : ℚ) = -27 := by
    rw [truncToInt_neg, h27]
  have e1 : display_buffer { humidity := 65, temp_celsius := -27 }
      = [133, 6, 0, 15, 0, 121, -2, 15] := by
    rw [display_buffer_eq]
    simp only [h65, hm27]
    decide
  have e2 : display_buffer { humidity := 65, temp_celsius := 27 }
      = [133, 6, 0, 15, 0, 135, 2, 15] := by
    rw [display_buffer_eq]
    simp only [h65, h27]
    decide
  refine ⟨e1, e2, ?_⟩
  rw [e1, e2]
  decide

/-- C13, amended: for a reading whose temperature has integer part `-t`
(truncation toward zero), the sign is kept during digit extraction: the
remainders of C are non-positive, so position 5 holds `128 - t mod 10` and
position 6 holds `-((t div 10) mod 10)`, positions 4 and 7 being 0 and 15; the
buffer equals the buffer for the opposite temperature exactly when both digits
are 0, i.e. when `t mod 100 = 0`. -/
theorem display_nums_negative_temperature (measures : dht_reading) (t : Nat)
    (ht : truncToInt measures.temp_celsius = -(t : Int)) :
    (display_buffer measures)[4]? = some 0
      ∧ (display_buffer measures)[5]? = some (128 - ((t % 10 : Nat) : Int))
      ∧ (display_buffer measures)[6]? = some (-((t / 10 % 10 : Nat) : Int))
      ∧ (display_buffer measures)[7]? = some 15
      ∧ (display_buffer measures
          = display_buffer { measures with temp_celsius := -measures.temp_celsius }
            ↔ t % 100 = 0) := by
  have hpos : truncToInt (-measures.temp_celsius) = (t : Int) := by
    rw [truncToInt_neg, ht, neg_neg]
  rw [display_buffer_eq, display_buffer_eq, ht]
  simp only [hpos, neg_tmod_ten, Int.neg_tdiv, tmod_ten_natCast, tdiv_ten_natCast]
  refine ⟨rfl, ?_, rfl, rfl, ?_⟩
  · simp only [List.getElem?_cons_succ, List.getElem?_cons_zero, Option.some.injEq]
    omega
  · simp only [List.cons.injEq, true_and, and_true]
    constructor
    · rintro ⟨h1, h2⟩
      omega
    · intro h
      constructor <;> omega

/-- Instance of C13 (amended): temperature -27.7. -/
theorem display_nums_negative_temperature_witness :
    (display_buffer { humidity := 652 / 10, temp_celsius := -(277 / 10) })[5]? = some 121
      ∧ (display_buffer { humidity := 652 / 10, temp_celsius := -(277 / 10) })[6]? = some (-2) := by
  have ht : truncToInt (-(277 / 10) : ℚ) = -((27 : Nat) : Int) := by
    rw [truncToInt_neg, truncToInt_of_bounds _ 27 (by norm_num) (by norm_num)]
  have w := display_nums_negative_temperature
    { humidity := 652 / 10, temp_celsius := -(277 / 10) } 27 ht
  exact ⟨w.2.1, w.2.2.1⟩

/-- C14, as stated, fails: for the reading (65, -27) position 6 of the digit
buffer holds -2, which is neither in 0..15 nor in 128..143, and is sent as the
byte 254. -/
theorem display_nums_entry_out_of_range :
    (display_buffer { humidity := 65, temp_celsius := -27 })[6]? = some (-2)
      ∧ ¬ ((0 ≤ (-2 : Int) ∧ (-2 : Int) ≤ 15) ∨ (128 ≤ (-2 : Int) ∧ (-2 : Int) ≤ 143))
      ∧ toUInt8 (-2) = 254 := by
  have h65 : truncToInt (65 : ℚ) = 65 := truncToInt_intCast 65
  have h27 : truncToInt (27 : ℚ) = 27 := truncToInt_intCast 27
  have hm27 : truncToInt (-27 : ℚ) = -27 := by
    rw [truncToInt_neg, h27]
  have e1 : display_buffer { humidity := 65, temp_celsius := -27 }
      = [133, 6, 0, 15, 0, 121, -2, 15] := by
    rw [display_buffer_eq]
    simp only [h65, hm27]
    decide
  rw [e1]
  decide

/-- C14, amended: for every reading whose humidity and temperature have integer
parts `≥ 0`, the digit buffer has 8 entries, each in 0..15 or in 128..143, and
each is sent unchanged by the conversion to `uint8_t`. -/
theorem display_nums_entries_in_range (measures : dht_reading)
    (hh : 0 ≤ truncToInt measures.humidity) (ht : 0 ≤ truncToInt measures.temp_celsius) :
    (display_buffer measures).length = 8
      ∧ ∀ x ∈ display_buffer measures,
          ((0 ≤ x ∧ x ≤ 15) ∨ (128 ≤ x ∧ x ≤ 143)) ∧ (toUInt8 x : Int) = x := by
  obtain ⟨h, hh'⟩ := Int.eq_ofNat_of_zero_le hh
  obtain ⟨t, ht'⟩ := Int.eq_ofNat_of_zero_le ht
  rw [display_buffer_eq, hh', ht']
  simp only [tmod_ten_natCast, tdiv_ten_natCast]
  refine ⟨rfl, ?_⟩
  intro x hx
  simp only [List.mem_cons, List.mem_singleton, List.not_mem_nil, or_false] at hx
  unfold toUInt8
  rcases hx with h | h | h | h | h | h | h | h <;> subst h <;> omega

/-- Instance of C14 (amended): the reading (65.2, 27.7). -/
theorem display_nums_entries_in_range_witness :
    (display_buffer { humidity := 652 / 10, temp_celsius := 277 / 10 }).length = 8
      ∧ ∀ x ∈ display_buffer { humidity := 652 / 10, temp_celsius := 277 / 10 },
          ((0 ≤ x ∧ x ≤ 15) ∨ (128 ≤ x ∧ x ≤ 143)) ∧ (toUInt8 x : Int) = x :=
  display_nums_entries_in_range { humidity := 652 / 10, temp_celsius := 277 / 10 }
    (by rw [truncToInt_of_bounds _ 65 (by norm_num) (by norm_num)]; decide)
    (by rw [truncToInt_of_bounds _ 27 (by norm_num) (by norm_num)]; decide)


/-! ## Termination and array bounds of the sampling loop -/

/-- The tick-counting loop started with `count + fuel = 255` does not use more
iterations than `fuel`: additional fuel does not change its result. -/
theorem tick_loop_fuel (pin : Pin) (last : Nat) (fuel extra reads count : Nat)
    (h : count + fuel = 255) (hf : 0 < fuel) :
    tick_loop pin last (fuel + extra) reads count = tick_loop pin last fuel reads count := by
  induction fuel generalizing reads count with
  | zero => omega
  | succ fuel ih =>
    have e : fuel + 1 + extra = (fuel + extra) + 1 := by omega
    rw [e, tick_loop, tick_loop]
    by_cases hg : (gpio_get pin reads == last) = true
    · rw [if_pos hg, if_pos hg]
      by_cases hc : (count + 1 == 255) = true
      · rw [if_pos hc, if_pos hc]
      · have hc' : count + 1 ≠ 255 := by simpa using hc
        rw [if_neg hc, if_neg hc]
        exact ih (reads + 1) (count + 1) (by omega) (by omega)
    · rw [if_neg hg, if_neg hg]

/-- The tick-counting loop as called by the sampling loop consumes at most 256
samples: at most 255 iterations and the test that ends it. -/
theorem tick_loop_reads_le (pin : Pin) (last reads : Nat) :
    (tick_loop pin last 255 reads 0).1 ≤ reads + 256 := by
  have h := tick_loop_spec pin last 255 reads 0 (by omega) (by omega)
  rcases Nat.lt_or_ge (tick_loop pin last 255 reads 0).2 255 with h1 | h1
  · rw [h.2.2.2 h1]; omega
  · rw [h.2.2.1 (by omega)]; omega

/-- A run in which the first count of 255 occurs at a transition `t ≤ 84` stops
there. -/
theorem sample_timeout_by_84 (pin : Pin) (t : Nat) (ht : t ≤ 84)
    (hc : tick_count pin t = 255) (hmin : ∀ k, k < t → tick_count pin k ≠ 255) :
    sample pin = Except.ok (state_timeout pin t) := by
  have e : MAX_TIMINGS = t + ((99 - t) + 1) := by
    unfold MAX_TIMINGS; omega
  unfold sample
  rw [e, sample_loop_unroll pin ((99 - t) + 1) t ht hmin, sample_loop_timeout pin (99 - t) t hc]

/-- A run in which no count reaches 255 up to transition 84 writes to
`data[5]` in iteration 84. -/
theorem sample_overrun (pin : Pin) (h : ∀ i, i ≤ 84 → tick_count pin i ≠ 255) :
    sample_loop pin 84 0 DhtState.init = Except.ok (state_at pin 84)
      ∧ sample pin = Except.error 5 := by
  constructor
  · have e := sample_loop_unroll pin 0 84 (by omega) (fun i hi => h i (by omega))
    rw [Nat.add_zero] at e
    rw [e]
    rfl
  · unfold sample MAX_TIMINGS
    rw [sample_loop_unroll pin 16 84 (by omega) (fun i hi => h i (by omega)),
      sample_loop_overrun pin 15 (h 84 (by omega))]

/-- Every run of the sampling phase either stops at the first transition
`t ≤ 84` whose count reaches 255, or has no such transition and writes to
`data[5]`. -/
theorem sample_outcome (pin : Pin) :
    (∃ t, t ≤ 84 ∧ tick_count pin t = 255 ∧ (∀ k, k < t → tick_count pin k ≠ 255)
        ∧ sample pin = Except.ok (state_timeout pin t))
      ∨ ((∀ i, i ≤ 84 → tick_count pin i ≠ 255) ∧ sample pin = Except.error 5) := by
  by_cases h : ∃ t, t ≤ 84 ∧ tick_count pin t = 255
  · left
    have hmin : ∀ k, k < Nat.find h → tick_count pin k ≠ 255 := by
      intro k hk hk255
      exact Nat.find_min h hk ⟨by have := (Nat.find_spec h).1; omega, hk255⟩
    exact ⟨Nat.find h, (Nat.find_spec h).1, (Nat.find_spec h).2, hmin,
      sample_timeout_by_84 pin _ (Nat.find_spec h).1 (Nat.find_spec h).2 hmin⟩
  · right
    have h' : ∀ i, i ≤ 84 → tick_count pin i ≠ 255 := fun i hi hc => h ⟨i, hi, hc⟩
    exact ⟨h', (sample_overrun pin h').2⟩

/-- A read whose first count of 255 occurs at a transition `t ≤ 82` returns
with the caller's reading unchanged. -/
theorem read_from_dht_first_timeout (pin : Pin) (t : Nat) (ht : t ≤ 82)
    (hc : tick_count pin t = 255) (hmin : ∀ k, k < t → tick_count pin k ≠ 255)
    (result : dht_reading) :
    read_from_dht pin result = Except.ok (result, ["Bad data\n"]) := by
  have hj : (state_timeout pin t).j < 40 := by
    show (t - 3) / 2 < 40
    omega
  rw [read_from_dht_ok pin _ result (sample_timeout_by_84 pin t (by omega) hc hmin),
    decode_reject _ _ result (Or.inl hj)]

/-- On a line that never changes level the read returns after one transition
(line high) or two (line low), with the caller's reading unchanged. -/
theorem read_from_dht_constant_line (level : Bool) (result : dht_reading) :
    read_from_dht (fun _ => level) result = Except.ok (result, ["Bad data\n"]) := by
  cases level
  · refine read_from_dht_first_timeout (fun _ => false) 1 (by omega)
      tick_count_constant_line.2.2 (fun k hk => ?_) result
    have e : k = 0 := by omega
    rw [e, tick_count_constant_line.2.1]
    decide
  · exact read_from_dht_first_timeout (fun _ => true) 0 (by omega)
      tick_count_constant_line.1 (fun k hk => by omega) result

theorem counts_toggling_le (n i : Nat) : counts_toggling n i ≤ 255 := by
  unfold counts_toggling
  split <;> decide

/-- The counts measured on a line that toggles during its first `n`
transitions. -/
theorem tick_count_toggling (n i : Nat) (hi : i ≤ n) :
    tick_count (pin_of_counts (counts_toggling n)) i = counts_toggling n i :=
  (tick_count_pin_of_counts (counts_toggling n) (counts_toggling_le n) i
    (fun k hk => by
      unfold counts_toggling
      rw [if_pos (by omega)]
      decide)).2

/-- A read whose sampling phase writes outside `data` returns no reading. -/
theorem read_from_dht_error (pin : Pin) (k : Nat) (result : dht_reading)
    (h : sample pin = Except.error k) :
    read_from_dht pin result = Except.error k := by
  simp only [read_from_dht, h]

/-- C15 fails on the code: on a line that changes level every 16 ticks for 90
transitions and then stays idle, the first count of 255 is that of transition
90, but the sampling phase does not reach it: iteration 84, entered with
`j = 40`, writes to `data[5]`, outside the array, and the read does not return
a reading. -/
theorem sampling_faults_before_first_timeout :
    (∀ i, i < 90 → tick_count (pin_of_counts (counts_toggling 90)) i = 16)
      ∧ tick_count (pin_of_counts (counts_toggling 90)) 90 = 255
      ∧ sample (pin_of_counts (counts_toggling 90)) = Except.error 5
      ∧ ∀ result, read_from_dht (pin_of_counts (counts_toggling 90)) result = Except.error 5 := by
  have h16 : ∀ i, i < 90 → tick_count (pin_of_counts (counts_toggling 90)) i = 16 := by
    intro i hi
    rw [tick_count_toggling 90 i (by omega)]
    unfold counts_toggling
    rw [if_pos hi]
  have hs : sample (pin_of_counts (counts_toggling 90)) = Except.error 5 :=
    (sample_overrun _ (fun i hi => by rw [h16 i (by omega)]; decide)).2
  refine ⟨h16, ?_, hs, ?_⟩
  · rw [tick_count_toggling 90 90 (by omega)]
    rfl
  · intro result
    exact read_from_dht_error _ 5 result hs

/-- C16 fails on the code: on a line that changes level every 16 ticks
throughout, the sampling loop enters iteration 84 with `j = 40`, so the byte
index `j / 8` it uses there is 5, outside `data[0..4]`. -/
theorem sampling_writes_data_5 :
    (∀ i, i < 100 → tick_count (pin_of_counts (counts_toggling 100)) i = 16)
      ∧ (∃ st, sample_loop (pin_of_counts (counts_toggling 100)) 84 0 DhtState.init
            = Except.ok st
          ∧ st.j = 40 ∧ st.j / 8 = 5)
      ∧ sample (pin_of_counts (counts_toggling 100)) = Except.error 5 := by
  have h16 : ∀ i, i < 100 → tick_count (pin_of_counts (counts_toggling 100)) i = 16 := by
    intro i hi
    rw [tick_count_toggling 100 i (by omega)]
    unfold counts_toggling
    rw [if_pos hi]
  have ho := sample_overrun (pin_of_counts (counts_toggling 100))
    (fun i hi => by rw [h16 i (by omega)]; decide)
  exact ⟨h16, ⟨state_at _ 84, ho.1, rfl, rfl⟩, ho.2⟩

/-! ## Single-bit errors -/

set_option maxRecDepth 100000 in
theorem xor_two_pow_byte : ∀ x, x < 256 → ∀ k, k < 8 →
    (x ^^^ 2 ^ k) < 256 ∧ ((x ^^^ 2 ^ k) = x + 2 ^ k ∨ (x ^^^ 2 ^ k) + 2 ^ k = x) := by
  decide

/-- C17: for every frame of five bytes that passes the checksum test, the
frame with any one of its 40 bits flipped is again a frame of five bytes and
fails the test, so the decoder leaves the reading unchanged. -/
theorem read_from_dht_detects_single_bit_flip (b0 b1 b2 b3 b4 : Nat)
    (h0 : b0 < 256) (h1 : b1 < 256) (h2 : b2 < 256) (h3 : b3 < 256) (h4 : b4 < 256)
    (hsum : b4 = (b0 + b1 + b2 + b3) % 256) (m k : Nat) (hm : m < 5) (hk : k < 8)
    (j : Nat) (result : dht_reading) :
    (flip_bit [b0, b1, b2, b3, b4] m k).length = 5
      ∧ (∀ i, i < 5 → (flip_bit [b0, b1, b2, b3, b4] m k).getD i 0 < 256)
      ∧ (flip_bit [b0, b1, b2, b3, b4] m k).getD 4 0
          ≠ ((flip_bit [b0, b1, b2, b3, b4] m k).getD 0 0
              + (flip_bit [b0, b1, b2, b3, b4] m k).getD 1 0
              + (flip_bit [b0, b1, b2, b3, b4] m k).getD 2 0
              + (flip_bit [b0, b1, b2, b3, b4] m k).getD 3 0) % 256
      ∧ decode (flip_bit [b0, b1, b2, b3, b4] m k) j result = (result, ["Bad data\n"]) := by
  have hpow : 2 ^ k = 1 ∨ 2 ^ k = 2 ∨ 2 ^ k = 4 ∨ 2 ^ k = 8 ∨ 2 ^ k = 16 ∨ 2 ^ k = 32
      ∨ 2 ^ k = 64 ∨ 2 ^ k = 128 := by
    interval_cases k <;> simp
  have hm' : m = 0 ∨ m = 1 ∨ m = 2 ∨ m = 3 ∨ m = 4 := by omega
  have hbad : (flip_bit [b0, b1, b2, b3, b4] m k).getD 4 0
      ≠ ((flip_bit [b0, b1, b2, b3, b4] m k).getD 0 0
          + (flip_bit [b0, b1, b2, b3, b4] m k).getD 1 0
          + (flip_bit [b0, b1, b2, b3, b4] m k).getD 2 0
          + (flip_bit [b0, b1, b2, b3, b4] m k).getD 3 0) % 256 := by
    rcases hm' with e | e | e | e | e <;> subst e <;>
      simp only [flip_bit, List.set, List.getD_cons_zero, List.getD_cons_succ]
    · have hx := xor_two_pow_byte b0 h0 k hk
      omega
    · have hx := xor_two_pow_byte b1 h1 k hk
      omega
    · have hx := xor_two_pow_byte b2 h2 k hk
      omega
    · have hx := xor_two_pow_byte b3 h3 k hk
      omega
    · have hx := xor_two_pow_byte b4 h4 k hk
      omega
  refine ⟨?_, ?_, hbad, decode_reject _ j result (Or.inr hbad)⟩
  · simp [flip_bit]
  · intro i hi
    have hi' : i = 0 ∨ i = 1 ∨ i = 2 ∨ i = 3 ∨ i = 4 := by omega
    have x0 := (xor_two_pow_byte b0 h0 k hk).1
    have x1 := (xor_two_pow_byte b1 h1 k hk).1
    have x2 := (xor_two_pow_byte b2 h2 k hk).1
    have x3 := (xor_two_pow_byte b3 h3 k hk).1
    have x4 := (xor_two_pow_byte b4 h4 k hk).1
    rcases hm' with e | e | e | e | e <;> subst e <;>
      rcases hi' with e | e | e | e | e <;> subst e <;>
      simp only [flip_bit, List.set, List.getD_cons_zero, List.getD_cons_succ] <;>
      assumption

/-- Instance of C17: bit 3 of the temperature byte `0x15` of the frame
`[0x02, 0x8C, 0x01, 0x15, 0xA4]` is flipped. -/
theorem read_from_dht_detects_single_bit_flip_witness :
    decode (flip_bit [0x02, 0x8C, 0x01, 0x15, 0xA4] 3 3) 40 { humidity := 55, temp_celsius := 21 }
      = ({ humidity := 55, temp_celsius := 21 }, ["Bad data\n"]) :=
  (read_from_dht_detects_single_bit_flip 0x02 0x8C 0x01 0x15 0xA4
    (by decide) (by decide) (by decide) (by decide) (by decide) (by decide) 3 3
    (by decide) (by decide) 40 { humidity := 55, temp_celsius := 21 }).2.2.2


end FrogManagement
